import Mathlib

/-!
ChampSim virtual memory with a frame allocator (`src/vmem_modified.cc`)

A shallow embedding of `BuddyAllocator` and of `VirtualMemory` (constructor,
`va_to_pa`, `get_pte_pa` and their helpers), followed by the properties of
the specification checked against it.

Conventions of the embedding.
* `uint64_t` values are natural numbers; every operation that can leave the
  64-bit range is reduced modulo `2 ^ 64` where the source computes it.
* `std::vector` is `List`; `std::map` is a function from keys to `Option`.
* A statement whose effect is undefined in C++ (reading `v[0]` of an empty
  vector, erasing past the end, popping an empty deque, dividing by zero,
  shifting a 64-bit value by 64 or more) makes the function return `none`.
* A loop that can run for ever is run with `fuel`, a bound on its iterations;
  `none` then means that the loop has not finished within the bound.
* Leaving a value-returning function without a `return` statement is
  undefined in C++ as well. `merging` does so when its loop finds no region,
  `deallocation` on every path. For these two the embedding follows the
  statements that are executed, as a build without optimisation does, and
  keeps the missing `return` visible: `merging` has `none` in its value
  position, `deallocation` gives a state and no value, and
  `ppage_allocate_defined` says when a call of `ppage_allocate` ends through
  a `return` statement in every function it runs. What the embedding says
  about a call that leaves a function this way is what the executed
  statements do; a compiler is free to do otherwise there.
* `dram.current_cycle` is read from the memory controller; it is passed to
  the embedded functions as the argument `cycle`.
-/

namespace ChampSim

/-- Number of values of a `uint64_t`. -/
def U64 : Nat := 2 ^ 64

/-- Modelled from the spec: `champsim_constants.h` is not among the sources; the
spec's scenario fixes the page size to 4096 bytes, the value the allocator
hard-codes as `>> 12`, `<< 12` and `4096`. -/
def LOG2_PAGE_SIZE : Nat := 12

/-- Modelled from the spec: `champsim_constants.h` is not among the sources; the
page size of the spec's scenario, `1 << LOG2_PAGE_SIZE`. -/
def PAGE_SIZE : Nat := 4096

/-- Modelled from the spec: `champsim_constants.h` is not among the sources; the
spec's scenario fixes `pte_bytes = 8`. -/
def PTE_BYTES : Nat := 8

/-- Modelled from the spec: `champsim::bitmask` lives in a header that is not among
the sources; the mask of the low `bits` bits (the spec's `page_offset_mask`
for `bits = log2(page_size)`). -/
def bitmask (bits : Nat) : Nat := (2 ^ bits - 1) % U64

/-- Modelled from the spec: `champsim::splice_bits` lives in a header that is not
among the sources; the 64-bit word made of the bits of `upper` above position
`bits` and of the low `bits` bits of `lower` (the spec's
`(frame_number << log2(page_size)) | (vaddr & page_offset_mask)` for a
page-aligned `upper`). -/
def splice_bits (upper lower bits : Nat) : Nat :=
  (upper &&& (U64 - 1 - bitmask bits)) ||| (lower &&& bitmask bits)

/-- Halving `n` at most `steps` times: the number of halvings after which at
most 1 is left. -/
def lg2_halve : Nat → Nat → Nat
  | 0, _ => 0
  | steps + 1, n => if n ≤ 1 then 0 else lg2_halve steps (n / 2) + 1

/-- Modelled from the spec: `champsim::lg2` lives in a header that is not among the
sources; the spec's `log2` of a 64-bit value, the position of its highest set
bit (0 for the values 0 and 1). -/
def lg2 (n : Nat) : Nat := lg2_halve 64 n

/-! ## BuddyAllocator -/

/-- Modelled from the spec: the element type of `allocated_frame_table` is declared in
`vmem.h`, which is not among the sources; the spec's AllocatedRegion
`{start_frame, frame_count, owning_virtual_page, last_access_cycle}`, with the
member names the source uses, in the order of the initialiser
`{real_frame, 1, vaddr>>12, cycle}`. -/
structure Allocation where
  start_frame : Nat
  size : Nat
  start_page : Nat
  last_access : Nat
deriving DecidableEq, Repr

/-- The two tables of `class BuddyAllocator`. -/
structure BuddyAllocator where
  free_frame_table : List Nat
  allocated_frame_table : List Allocation
deriving DecidableEq, Repr

namespace BuddyAllocator

/-- `BuddyAllocator::BuddyAllocator(dram_size, frame_size)`: pushes `i` for
every `i` with `0 <= i <= num_of_frames`. Division by zero is undefined, and
for `num_of_frames = 2^64 - 1` the loop condition `i <= num_of_frames` never
fails. -/
def construct (dram_size frame_size : Nat) : Option BuddyAllocator :=
  if frame_size = 0 then none
  else
    let num_of_frames := dram_size / frame_size
    if U64 ≤ num_of_frames + 1 then none
    else some { free_frame_table := List.range (num_of_frames + 1), allocated_frame_table := [] }

/-- `BuddyAllocator::get_free_frame(pref_frame)`: the loop starts at `i = 0`,
where `0 <= size()` holds for every table, and both branches of its body
return, so only `free_frame_table[0]` is ever read. -/
def get_free_frame (ba : BuddyAllocator) (pref_frame : Nat) : Option Nat :=
  match ba.free_frame_table with
  | [] => none
  | f0 :: _ => if pref_frame = f0 then some pref_frame else some f0

/-- The loop of `BuddyAllocator::can_merge` over the allocated table. -/
def can_merge_scan : List Allocation → Nat → Nat
  | [], _ => 0
  | a :: rest, page =>
    if page = (a.start_page + a.size + 1) % U64 then (a.size + 1) % U64
    else can_merge_scan rest page

/-- `BuddyAllocator::can_merge(page)`. -/
def can_merge (ba : BuddyAllocator) (page : Nat) : Nat :=
  can_merge_scan ba.allocated_frame_table page

/-- The loop of `BuddyAllocator::merging` over the allocated table: the table
after the call, and the value returned (`some 0` from inside the loop; `none`
when the loop ends and control leaves the function without a `return`). -/
def merging_scan : List Allocation → Nat → Nat → List Allocation × Option Nat
  | [], _, _ => ([], none)
  | a :: rest, pref_frame, cycle =>
    if pref_frame = (a.start_page + a.size + 1) % U64 then
      ({ a with size := (a.size + 1) % U64, last_access := cycle } :: rest, some 0)
    else
      ((a :: (merging_scan rest pref_frame cycle).1), (merging_scan rest pref_frame cycle).2)

/-- `BuddyAllocator::merging(pref_frame, cycle)`: the allocator after the
statements executed, and the value returned. The value is `none` when the
loop finds no region: the function then ends without a `return` statement,
which is undefined in C++. Its only caller discards the returned value. -/
def merging (ba : BuddyAllocator) (pref_frame cycle : Nat) : BuddyAllocator × Option Nat :=
  ({ ba with allocated_frame_table := (merging_scan ba.allocated_frame_table pref_frame cycle).1 },
   (merging_scan ba.allocated_frame_table pref_frame cycle).2)

/-- `BuddyAllocator::ppage_allocate(cycle, vaddr)`: the allocator after the call
and the returned value `real_frame << 12`. `erase(begin() + pref_frame)` is
defined only for `pref_frame < size()`. -/
def ppage_allocate (ba : BuddyAllocator) (cycle vaddr : Nat) : Option (BuddyAllocator × Nat) :=
  let pref_frame := ba.can_merge (vaddr >>> 12)
  match ba.get_free_frame pref_frame with
  | none => none
  | some real_frame =>
    if pref_frame = real_frame then
      let ba1 := (ba.merging pref_frame cycle).1
      if pref_frame < ba1.free_frame_table.length then
        some ({ ba1 with free_frame_table := ba1.free_frame_table.eraseIdx pref_frame },
              (real_frame <<< 12) % U64)
      else none
    else
      some ({ free_frame_table := ba.free_frame_table.eraseIdx 0,
              allocated_frame_table :=
                ba.allocated_frame_table ++ [⟨real_frame, 1, vaddr >>> 12, cycle⟩] },
            (real_frame <<< 12) % U64)

/-- The call `ppage_allocate(cycle, vaddr)` ends through a `return` statement in
every function it runs and erases at a valid position: the free table is not
empty, and when the merge branch is taken (the value of `can_merge` is the
first free entry) that value is a valid index of the free table and
`merging` finds a region. -/
def ppage_allocate_defined (ba : BuddyAllocator) (cycle vaddr : Nat) : Prop :=
  match ba.free_frame_table with
  | [] => False
  | f0 :: _ =>
    ba.can_merge (vaddr >>> 12) = f0 →
      f0 < ba.free_frame_table.length ∧ (ba.merging f0 cycle).2 ≠ none

instance (ba : BuddyAllocator) (cycle vaddr : Nat) :
    Decidable (ba.ppage_allocate_defined cycle vaddr) := by
  unfold ppage_allocate_defined
  split <;> infer_instance

/-- The `for` loop of `BuddyAllocator::deallocation`, started at index `i`:
`size()` is read again in every iteration, and an insertion at `i` moves the
element just tested to `i + 1`. `fuel` bounds the number of iterations; `none`
means that the loop has not finished within `fuel` iterations. -/
def deallocation_scan : Nat → List Nat → Nat → Nat → Nat → Option (List Nat)
  | 0, _, _, _, _ => none
  | fuel + 1, free, i, start_frame, value =>
    if h : i < free.length then
      if free.get ⟨i, h⟩ > start_frame then
        deallocation_scan fuel (free.insertIdx i value) (i + 1) start_frame value
      else
        deallocation_scan fuel free (i + 1) start_frame value
    else some free

/-- `BuddyAllocator::deallocation(cycle, index)` run for at most `fuel` loop
iterations: the state after the statements executed. The function is declared
to return a `uint64_t` and has no `return` statement on any path, so it never
produces a value and ending it is undefined in C++; what is given here is
what its statements do. `allocated_frame_table[index]` is read inside the
loop, and `erase(begin() + index)` needs `index < size()`. -/
def deallocation (fuel : Nat) (ba : BuddyAllocator) (cycle index : Nat) : Option BuddyAllocator :=
  if cycle > 10000000 then
    if h : index < ba.allocated_frame_table.length then
      let a := ba.allocated_frame_table.get ⟨index, h⟩
      match deallocation_scan fuel ba.free_frame_table 0 a.start_frame
              ((a.start_frame + a.size) % U64) with
      | none => none
      | some free =>
        some { free_frame_table := free,
               allocated_frame_table := ba.allocated_frame_table.eraseIdx index }
    else none
  else some ba

/-- Successive calls `ppage_allocate(cycle, vaddr)`, one for each listed pair
`(cycle, vaddr)` and with no other call in between: the allocator after the
last call and the returned values in call order. -/
def allocate_all : BuddyAllocator → List (Nat × Nat) → Option (BuddyAllocator × List Nat)
  | ba, [] => some (ba, [])
  | ba, request :: rest =>
    match ba.ppage_allocate request.1 request.2 with
    | none => none
    | some (ba1, frame_address) =>
      match allocate_all ba1 rest with
      | none => none
      | some (ba2, others) => some (ba2, frame_address :: others)

/-- Frame `f` lies in the frame range `[start_frame, start_frame + size)` of the
allocated region `a`. -/
def in_region (f : Nat) (a : Allocation) : Prop :=
  a.start_frame ≤ f ∧ f < a.start_frame + a.size

instance (f : Nat) (a : Allocation) : Decidable (in_region f a) := by
  unfold in_region; infer_instance

/-- Frame `f` lies in the frame range of some entry of the allocated table. -/
def allocated (ba : BuddyAllocator) (f : Nat) : Prop :=
  ∃ a ∈ ba.allocated_frame_table, in_region f a

instance (ba : BuddyAllocator) (f : Nat) : Decidable (ba.allocated f) := by
  unfold allocated; infer_instance

/-- The partition of the frame space `[0, total_frames)`: every frame is in
exactly one of the free table and the allocated regions. -/
def partitioned (total_frames : Nat) (ba : BuddyAllocator) : Prop :=
  ∀ f, f < total_frames → Xor' (f ∈ ba.free_frame_table) (ba.allocated f)

instance (total_frames : Nat) (ba : BuddyAllocator) : Decidable (partitioned total_frames ba) := by
  unfold partitioned Xor'; infer_instance

/-- The allocator states reachable from `BuddyAllocator(dram_size, frame_size)`
by calls of `ppage_allocate` and of `deallocation` that return. -/
inductive Reachable (dram_size frame_size : Nat) : BuddyAllocator → Prop
  | constructed (ba : BuddyAllocator) :
      construct dram_size frame_size = some ba → Reachable dram_size frame_size ba
  | allocate (ba ba1 : BuddyAllocator) (cycle vaddr frame_address : Nat) :
      Reachable dram_size frame_size ba →
      ba.ppage_allocate cycle vaddr = some (ba1, frame_address) →
      Reachable dram_size frame_size ba1
  | deallocate (ba ba1 : BuddyAllocator) (fuel cycle index : Nat) :
      Reachable dram_size frame_size ba →
      ba.deallocation fuel cycle index = some ba1 →
      Reachable dram_size frame_size ba1

end BuddyAllocator

/-! ## VirtualMemory -/

/-- What `VirtualMemory` takes from headers and libraries that are not among
the sources: the constant `VMEM_RESERVE_CAPACITY` of `champsim_constants.h`,
and the permutation `std::shuffle` applies to a list when driven by a
`std::mt19937_64` seeded with the given seed. -/
structure Externals where
  VMEM_RESERVE_CAPACITY : Nat
  shuffle : Nat → List Nat → List Nat

/-- The members of `class VirtualMemory` that the source reads or writes.
`free_table` is only ever asked for its size and is never modified, so the
size stands for it; `virtual_seed` is the static member. -/
structure VirtualMemory where
  vpage_to_ppage_map : Nat × Nat → Option Nat
  page_table : Nat × Nat × Nat → Option Nat
  next_pte_page : Nat
  next_ppage : Nat
  last_ppage : Nat
  ppage_free_list : List Nat
  free_table_size : Nat
  minor_fault_penalty : Nat
  pt_levels : Nat
  pte_page_size : Nat
  pmem_size : Nat
  BA : BuddyAllocator
  virtual_seed : Nat

/-- The map `m` after `m[key] = value`. -/
def map_assign {κ : Type} [DecidableEq κ] (m : κ → Option Nat) (key : κ) (value : Nat) :
    κ → Option Nat :=
  fun k => if k = key then some value else m k

/-- The value `m[key]` of `std::map::operator[]`, which is the value-initialised
0 for a key that is not in the map. -/
def map_index {κ : Type} (m : κ → Option Nat) (key : κ) : Nat :=
  (m key).getD 0

/-- The map `m` after an evaluation of `m[key]`: a key that was not in the map
is now mapped to 0. -/
def map_touch {κ : Type} [DecidableEq κ] (m : κ → Option Nat) (key : κ) : κ → Option Nat :=
  map_assign m key (map_index m key)

namespace VirtualMemory

/-- `VirtualMemory::VirtualMemory(page_table_page_size, page_table_levels,
minor_penalty, dram)`, with `dram_size` for `dram.size()` and `seed` for the
static `virtual_seed`. The members without an initialiser in the constructor
start empty (the containers) or at 0 (`next_pte_page`). The shift amount of
`last_ppage` is computed in 64-bit unsigned arithmetic and wraps around. A
shift `1ull << n` with `n >= 64`, a failed `assert` and a failed construction
of the allocator give `none`. -/
def construct (X : Externals) (page_table_page_size page_table_levels minor_penalty dram_size
    seed : Nat) : Option VirtualMemory :=
  let bits :=
    (LOG2_PAGE_SIZE + lg2 (page_table_page_size / PTE_BYTES) * page_table_levels) % U64
  if 64 ≤ bits then none
  else
    match BuddyAllocator.construct dram_size 4096 with
    | none => none
    | some ba =>
      if page_table_page_size > 1024 ∧ page_table_page_size = 2 ^ lg2 page_table_page_size
          ∧ 2 ^ bits > X.VMEM_RESERVE_CAPACITY then
        some { vpage_to_ppage_map := fun _ => none
               page_table := fun _ => none
               next_pte_page := 0
               next_ppage := X.VMEM_RESERVE_CAPACITY
               last_ppage := 2 ^ bits
               ppage_free_list := []
               free_table_size := 0
               minor_fault_penalty := minor_penalty
               pt_levels := page_table_levels
               pte_page_size := page_table_page_size
               pmem_size := dram_size
               BA := ba
               virtual_seed := seed }
      else none

/-- `VirtualMemory::shuffle_pages()`. -/
def shuffle_pages (X : Externals) (vm : VirtualMemory) : VirtualMemory :=
  if vm.virtual_seed ≠ 0 then
    { vm with ppage_free_list := X.shuffle vm.virtual_seed vm.ppage_free_list }
  else vm

/-- `VirtualMemory::populate_pages()`: the list is resized to
`(pmem_size - VMEM_RESERVE_CAPACITY) / PAGE_SIZE` entries (an unsigned
subtraction) and entry `k` becomes `VMEM_RESERVE_CAPACITY + k * PAGE_SIZE`. -/
def populate_pages (X : Externals) (vm : VirtualMemory) : VirtualMemory :=
  let count := ((vm.pmem_size + U64 - X.VMEM_RESERVE_CAPACITY % U64) % U64) / PAGE_SIZE
  { vm with
    ppage_free_list :=
      List.map (fun k => (X.VMEM_RESERVE_CAPACITY + k * PAGE_SIZE) % U64) (List.range count) }

/-- `VirtualMemory::available_ppages()`. -/
def available_ppages (vm : VirtualMemory) : Nat := vm.free_table_size

/-- `VirtualMemory::ppage_pop(cycle, vaddr)`: `pop_front` is undefined on an
empty `ppage_free_list`. -/
def ppage_pop (X : Externals) (vm : VirtualMemory) : Option VirtualMemory :=
  match vm.ppage_free_list with
  | [] => none
  | _ :: rest =>
    let vm1 := { vm with ppage_free_list := rest }
    if vm1.available_ppages = 0 then some (shuffle_pages X (populate_pages X vm1))
    else some vm1

/-- `VirtualMemory::va_to_pa(cpu_num, vaddr)` at `dram.current_cycle = cycle`:
the translator after the call and the returned pair
`(paddr, fault latency)`. -/
def va_to_pa (X : Externals) (vm : VirtualMemory) (cycle cpu_num vaddr : Nat) :
    Option (VirtualMemory × (Nat × Nat)) :=
  let faulty := (vm.vpage_to_ppage_map (cpu_num, vaddr >>> LOG2_PAGE_SIZE)).isNone
  let afterFault : Option VirtualMemory :=
    if faulty then
      match vm.ppage_pop X with
      | none => none
      | some vm1 =>
        match vm1.BA.ppage_allocate cycle vaddr with
        | none => none
        | some (ba, frame_address) =>
          some { vm1 with
                 BA := ba,
                 vpage_to_ppage_map :=
                   map_assign vm1.vpage_to_ppage_map (cpu_num, vaddr) frame_address }
    else some vm
  match afterFault with
  | none => none
  | some vm2 =>
    let ppage := map_index vm2.vpage_to_ppage_map (cpu_num, vaddr)
    let paddr := splice_bits ppage vaddr LOG2_PAGE_SIZE
    some ({ vm2 with vpage_to_ppage_map := map_touch vm2.vpage_to_ppage_map (cpu_num, vaddr) },
          (paddr, if faulty then vm.minor_fault_penalty else 0))

/-- Successive calls `va_to_pa(cpu_num, vaddr)`, one for each listed triple
`(cycle, cpu_num, vaddr)` and with no other call in between: the translator
after the last call and the returned pairs in call order. -/
def translate_all (X : Externals) :
    VirtualMemory → List (Nat × Nat × Nat) → Option (VirtualMemory × List (Nat × Nat))
  | vm, [] => some (vm, [])
  | vm, request :: rest =>
    match vm.va_to_pa X request.1 request.2.1 request.2.2 with
    | none => none
    | some (vm1, result) =>
      match translate_all X vm1 rest with
      | none => none
      | some (vm2, others) => some (vm2, result :: others)

/-- The two warnings of the constructor: whether the branch
`required_bits > 64` and whether the branch
`required_bits > champsim::lg2(dram.size())` is taken, for
`required_bits = champsim::lg2(last_ppage)`; `none` when the construction
does not complete. -/
def construct_warnings (X : Externals) (page_table_page_size page_table_levels minor_penalty
    dram_size seed : Nat) : Option (Bool × Bool) :=
  match construct X page_table_page_size page_table_levels minor_penalty dram_size seed with
  | none => none
  | some vm =>
    let required_bits := lg2 vm.last_ppage
    some (decide (required_bits > 64), decide (required_bits > lg2 dram_size))

/-- `VirtualMemory::shamt(level)`, in 64-bit unsigned arithmetic: `level - 1`
wraps around at `level = 0`. -/
def shamt (vm : VirtualMemory) (level : Nat) : Nat :=
  (LOG2_PAGE_SIZE
    + lg2 (vm.pte_page_size / PTE_BYTES) * (if level = 0 then U64 - 1 else level - 1)) % U64

/-- `VirtualMemory::get_offset(vaddr, level)`: a right shift of a 64-bit value
by 64 or more is undefined. -/
def get_offset (vm : VirtualMemory) (vaddr level : Nat) : Option Nat :=
  if 64 ≤ vm.shamt level then none
  else some ((vaddr >>> vm.shamt level) &&& bitmask (lg2 (vm.pte_page_size / PTE_BYTES)))

/-- The first statement of `get_pte_pa`: a cursor `next_pte_page` equal to 0 is
set to the value of `BA.ppage_allocate(dram.current_cycle, vaddr)`. -/
def pte_cursor_init (vm : VirtualMemory) (cycle vaddr : Nat) : Option VirtualMemory :=
  if vm.next_pte_page = 0 then
    match vm.BA.ppage_allocate cycle vaddr with
    | none => none
    | some (ba, frame_address) => some { vm with BA := ba, next_pte_page := frame_address }
  else some vm

/-- The body of `if (fault)` in `get_pte_pa`: the cursor advances by
`pte_page_size`, and when it then is a multiple of `PAGE_SIZE` the value of
`BA.ppage_allocate(dram.current_cycle, vaddr)` is assigned to
`vpage_to_ppage_map[{cpu_num, vaddr}]`. -/
def pte_cursor_advance (vm : VirtualMemory) (cycle cpu_num vaddr : Nat) : Option VirtualMemory :=
  let next := (vm.next_pte_page + vm.pte_page_size) % U64
  if next % PAGE_SIZE = 0 then
    match vm.BA.ppage_allocate cycle vaddr with
    | none => none
    | some (ba, frame_address) =>
      some { vm with
             next_pte_page := next,
             BA := ba,
             vpage_to_ppage_map :=
               map_assign vm.vpage_to_ppage_map (cpu_num, vaddr) frame_address }
  else some { vm with next_pte_page := next }

/-- `VirtualMemory::get_pte_pa(cpu_num, vaddr, level)` at
`dram.current_cycle = cycle`: the translator after the call and the returned
pair `(paddr, fault latency)`. `page_table.insert` leaves an existing entry
as it is and reports whether it inserted. -/
def get_pte_pa (vm : VirtualMemory) (cycle cpu_num vaddr level : Nat) :
    Option (VirtualMemory × (Nat × Nat)) :=
  match vm.pte_cursor_init cycle vaddr with
  | none => none
  | some vm1 =>
    if 64 ≤ vm1.shamt level then none
    else
      let key := (cpu_num, vaddr >>> vm1.shamt level, level)
      let fault := (vm1.page_table key).isNone
      let ppage := (vm1.page_table key).getD vm1.next_pte_page
      let afterFault : Option VirtualMemory :=
        if fault then
          pte_cursor_advance
            { vm1 with page_table := map_assign vm1.page_table key vm1.next_pte_page }
            cycle cpu_num vaddr
        else some vm1
      match afterFault with
      | none => none
      | some vm2 =>
        match vm2.get_offset vaddr level with
        | none => none
        | some offset =>
          some (vm2, (splice_bits ppage ((offset * PTE_BYTES) % U64) (lg2 vm2.pte_page_size),
                      if fault then vm.minor_fault_penalty else 0))

/-- The frame allocations that `get_pte_pa(cpu_num, vaddr, level)` makes are
defined: the one of its first statement, made when the cursor is 0, and the
one of the body of `if (fault)`, made on the allocator that the first
statement leaves when the key has no entry and the advanced cursor is a
multiple of `PAGE_SIZE`. -/
def get_pte_pa_allocations_defined (vm : VirtualMemory) (cycle cpu_num vaddr level : Nat) :
    Prop :=
  (vm.next_pte_page = 0 → vm.BA.ppage_allocate_defined cycle vaddr)
  ∧ (match vm.pte_cursor_init cycle vaddr with
     | none => True
     | some vm0 =>
       vm0.page_table (cpu_num, vaddr >>> vm0.shamt level, level) = none →
       (vm0.next_pte_page + vm0.pte_page_size) % U64 % PAGE_SIZE = 0 →
       vm0.BA.ppage_allocate_defined cycle vaddr)

instance (vm : VirtualMemory) (cycle cpu_num vaddr level : Nat) :
    Decidable (vm.get_pte_pa_allocations_defined cycle cpu_num vaddr level) := by
  unfold get_pte_pa_allocations_defined
  split <;> infer_instance

/-- Successive calls `get_pte_pa(cpu_num, vaddr, level)`, one for each listed
tuple `(cycle, cpu_num, vaddr, level)` and with no other call in between: the
translator after the last call and the returned pairs in call order. -/
def walk_all : VirtualMemory → List (Nat × Nat × Nat × Nat) →
    Option (VirtualMemory × List (Nat × Nat))
  | vm, [] => some (vm, [])
  | vm, request :: rest =>
    match vm.get_pte_pa request.1 request.2.1 request.2.2.1 request.2.2.2 with
    | none => none
    | some (vm1, result) =>
      match walk_all vm1 rest with
      | none => none
      | some (vm2, others) => some (vm2, result :: others)

/-- The translator states reachable from
`VirtualMemory(page_table_page_size, page_table_levels, minor_penalty, dram)`
by calls of `va_to_pa` and of `get_pte_pa` that return. -/
inductive ReachableState (X : Externals) (page_table_page_size page_table_levels minor_penalty
    dram_size seed : Nat) : VirtualMemory → Prop
  | constructed (vm : VirtualMemory) :
      construct X page_table_page_size page_table_levels minor_penalty dram_size seed = some vm →
      ReachableState X page_table_page_size page_table_levels minor_penalty dram_size seed vm
  | translate (vm vm1 : VirtualMemory) (cycle cpu_num vaddr : Nat) (result : Nat × Nat) :
      ReachableState X page_table_page_size page_table_levels minor_penalty dram_size seed vm →
      vm.va_to_pa X cycle cpu_num vaddr = some (vm1, result) →
      ReachableState X page_table_page_size page_table_levels minor_penalty dram_size seed vm1
  | walk (vm vm1 : VirtualMemory) (cycle cpu_num vaddr level : Nat) (result : Nat × Nat) :
      ReachableState X page_table_page_size page_table_levels minor_penalty dram_size seed vm →
      vm.get_pte_pa cycle cpu_num vaddr level = some (vm1, result) →
      ReachableState X page_table_page_size page_table_levels minor_penalty dram_size seed vm1

end VirtualMemory

/-! ## Example inputs -/

/-- Externals of the examples: a reserve of 1 MiB, and a shuffle that returns
its list (the examples keep the seed at 0, where no shuffle takes place). -/
def reserve_1MiB : Externals := ⟨1048576, fun _ pages => pages⟩

/-- Externals of the 1 MiB scenario: no reserve, so that `populate_pages`
lists all 256 pages of a memory of 1 MiB. -/
def reserve_none : Externals := ⟨0, fun _ pages => pages⟩

/-- The translator `VirtualMemory(4096, 3, 200, dram)` over a memory of
1 MiB + 8 pages after one `populate_pages()`: no translation yet, eight pages
in `ppage_free_list`, and the allocator `BuddyAllocator(1081344, 4096)`. -/
def populated_translator : VirtualMemory :=
  { vpage_to_ppage_map := fun _ => none
    page_table := fun _ => none
    next_pte_page := 0
    next_ppage := 1048576
    last_ppage := 2 ^ 39
    ppage_free_list := [0x100000, 0x101000, 0x102000, 0x103000, 0x104000, 0x105000, 0x106000,
      0x107000]
    free_table_size := 0
    minor_fault_penalty := 200
    pt_levels := 3
    pte_page_size := 4096
    pmem_size := 1081344
    BA := ⟨List.range 265, []⟩
    virtual_seed := 0 }

/-- The translator `VirtualMemory(4096, 3, 200, dram)` over a memory of
1 MiB + 8 pages as the constructor leaves it: both tables and
`ppage_free_list` empty, the cursor at 0, and the allocator
`BuddyAllocator(1081344, 4096)`. -/
def constructed_translator : VirtualMemory :=
  { vpage_to_ppage_map := fun _ => none
    page_table := fun _ => none
    next_pte_page := 0
    next_ppage := 1048576
    last_ppage := 2 ^ 39
    ppage_free_list := []
    free_table_size := 0
    minor_fault_penalty := 200
    pt_levels := 3
    pte_page_size := 4096
    pmem_size := 1081344
    BA := ⟨List.range 265, []⟩
    virtual_seed := 0 }

/-- A translator with `pte_page_size = 4096` that has recorded one node: the
cursor is at 0x1000, the node of the key `(0, 145, 2)` is recorded at 0, the
translation table maps `(0, 0x12345678)` to 0x1000, and the allocator has the
free frames 2, ..., 264 and the region `{1, 1, 0x12345, 7}`. -/
def walked_translator : VirtualMemory :=
  { vpage_to_ppage_map := map_assign (fun _ => none) (0, 0x12345678) 0x1000
    page_table := map_assign (fun _ => none) (0, 145, 2) 0
    next_pte_page := 0x1000
    next_ppage := 1048576
    last_ppage := 2 ^ 39
    ppage_free_list := []
    free_table_size := 0
    minor_fault_penalty := 200
    pt_levels := 3
    pte_page_size := 4096
    pmem_size := 1081344
    BA := ⟨List.map (fun i => i + 2) (List.range 263), [⟨1, 1, 0x12345, 7⟩]⟩
    virtual_seed := 0 }

/-- A translator with `pte_page_size = 8192` and three levels whose cursor is 0
and whose allocator has handed out frame 0: both tables are empty and the
free frames are 1, ..., 264. -/
def wide_node_translator : VirtualMemory :=
  { vpage_to_ppage_map := fun _ => none
    page_table := fun _ => none
    next_pte_page := 0
    next_ppage := 1048576
    last_ppage := 2 ^ 42
    ppage_free_list := []
    free_table_size := 0
    minor_fault_penalty := 200
    pt_levels := 3
    pte_page_size := 8192
    pmem_size := 1081344
    BA := ⟨List.map (fun i => i + 1) (List.range 264), []⟩
    virtual_seed := 0 }

/-- A translator with `pte_page_size = 4096` whose cursor is 0 and whose
allocator, `BuddyAllocator(4096, 4096)` after two allocations, has no free
frame left. -/
def exhausted_translator : VirtualMemory :=
  { vpage_to_ppage_map := fun _ => none
    page_table := fun _ => none
    next_pte_page := 0
    next_ppage := 0
    last_ppage := 2 ^ 39
    ppage_free_list := []
    free_table_size := 0
    minor_fault_penalty := 200
    pt_levels := 3
    pte_page_size := 4096
    pmem_size := 4096
    BA := ⟨[], [⟨1, 1, 0, 0⟩]⟩
    virtual_seed := 0 }

/-- The translator `VirtualMemory(4096, 3, 200, dram)` of the spec's scenario, a
memory of 1 MiB in 256 frames, without a reserve and after one
`populate_pages()`: no translation yet, the 256 pages in `ppage_free_list`,
and the allocator `BuddyAllocator(1048576, 4096)`. -/
def scenario_translator : VirtualMemory :=
  { vpage_to_ppage_map := fun _ => none
    page_table := fun _ => none
    next_pte_page := 0
    next_ppage := 0
    last_ppage := 2 ^ 39
    ppage_free_list := List.map (fun k => k * 4096) (List.range 256)
    free_table_size := 0
    minor_fault_penalty := 200
    pt_levels := 3
    pte_page_size := 4096
    pmem_size := 1048576
    BA := ⟨List.range 257, []⟩
    virtual_seed := 0 }

/-- The requests of the spec's scenario and one more: a translation on core 0 at
cycle 7 for the first address of each of the 257 pages 0, ..., 256. -/
def scenario_requests : List (Nat × Nat × Nat) :=
  List.map (fun page => (7, 0, page * 4096)) (List.range 257)

/-! ## Properties of the allocator -/

open BuddyAllocator VirtualMemory

set_option maxRecDepth 100000

/-! ### Arithmetic of `splice_bits` -/

/-- Bit `i` of `bitmask bits` is set exactly for `i < bits`. -/
theorem bitmask_testBit (bits i : Nat) (hb : bits ≤ 64) :
    (bitmask bits).testBit i = decide (i < bits) := by
  unfold bitmask U64
  rw [Nat.mod_eq_of_lt]
  · exact Nat.testBit_two_pow_sub_one bits i
  · have : 2 ^ bits ≤ 2 ^ 64 := Nat.pow_le_pow_right (by decide) hb
    have : 0 < 2 ^ bits := Nat.two_pow_pos bits
    omega

/-- Bit `i` of the 64-bit complement of `bitmask bits` is set exactly for
`bits ≤ i < 64`. -/
theorem upper_mask_testBit (bits i : Nat) (hb : bits ≤ 64) :
    (U64 - 1 - bitmask bits).testBit i = (decide (bits ≤ i) && decide (i < 64)) := by
  have h1 : U64 - 1 - bitmask bits = (2 ^ (64 - bits) - 1) <<< bits := by
    unfold bitmask U64
    have hle : 2 ^ bits ≤ 2 ^ 64 := Nat.pow_le_pow_right (by decide) hb
    have hpos : 0 < 2 ^ bits := Nat.two_pow_pos bits
    rw [Nat.mod_eq_of_lt (by omega), Nat.shiftLeft_eq, Nat.sub_mul, ← Nat.pow_add,
      Nat.sub_add_cancel hb]
    omega
  rw [h1, Nat.testBit_shiftLeft, Nat.testBit_two_pow_sub_one]
  by_cases h : bits ≤ i <;> simp [h]
  omega

/-- The bits of a splice: below `bits` those of `lower`, from `bits` up to 63
those of `upper`, none above. -/
theorem splice_bits_testBit (upper lower bits i : Nat) (hb : bits ≤ 64) :
    (splice_bits upper lower bits).testBit i
      = if i < bits then lower.testBit i else (decide (i < 64) && upper.testBit i) := by
  unfold splice_bits
  rw [Nat.testBit_lor, Nat.testBit_land, Nat.testBit_land, bitmask_testBit bits i hb,
    upper_mask_testBit bits i hb]
  by_cases h : i < bits
  · have : ¬ bits ≤ i := by omega
    simp [h, this]
  · have : bits ≤ i := by omega
    simp [h, this, Bool.and_comm]

/-- The low `bits` bits of a splice are those of `lower`. -/
theorem splice_bits_low (upper lower bits : Nat) (hb : bits ≤ 64) :
    splice_bits upper lower bits &&& bitmask bits = lower &&& bitmask bits := by
  apply Nat.eq_of_testBit_eq
  intro i
  rw [Nat.testBit_land, Nat.testBit_land, splice_bits_testBit upper lower bits i hb,
    bitmask_testBit bits i hb]
  by_cases h : i < bits <;> simp [h]

/-- Above position `bits` a splice is the 64-bit value `upper`. -/
theorem splice_bits_high (upper lower bits : Nat) (hb : bits ≤ 64) (hu : upper < U64) :
    splice_bits upper lower bits >>> bits = upper >>> bits := by
  apply Nat.eq_of_testBit_eq
  intro i
  rw [Nat.testBit_shiftRight, Nat.testBit_shiftRight, splice_bits_testBit upper lower _ _ hb]
  have h : ¬ bits + i < bits := by omega
  simp only [h, if_false]
  by_cases h64 : bits + i < 64
  · simp [h64]
  · simp only [h64, decide_False, Bool.false_and]
    symm
    apply Nat.testBit_eq_false_of_lt
    calc upper < 2 ^ 64 := hu
      _ ≤ 2 ^ (bits + i) := Nat.pow_le_pow_right (by decide) (by omega)

/-! ### The two branches of `ppage_allocate` -/

/-- On an empty free table the execution of `ppage_allocate` is undefined: it
reads `free_frame_table[0]`. -/
theorem ppage_allocate_empty_free_table (regions : List Allocation) (cycle vaddr : Nat) :
    (⟨[], regions⟩ : BuddyAllocator).ppage_allocate cycle vaddr = none := rfl

/-- The value returned by `ppage_allocate` is the address of the first entry
of the free table, whichever branch runs. -/
theorem ppage_allocate_returns_first_entry (ba ba1 : BuddyAllocator)
    (cycle vaddr frame_address : Nat)
    (h : ba.ppage_allocate cycle vaddr = some (ba1, frame_address)) :
    ∃ f0 rest, ba.free_frame_table = f0 :: rest ∧ frame_address = (f0 <<< 12) % U64 := by
  unfold ppage_allocate get_free_frame at h
  cases hfree : ba.free_frame_table with
  | nil => simp [hfree] at h
  | cons f0 rest =>
    refine ⟨f0, rest, rfl, ?_⟩
    simp only [hfree] at h
    by_cases hp : ba.can_merge (vaddr >>> 12) = f0
    · simp only [hp, if_true] at h
      split at h
      · exact ((Prod.mk.inj (Option.some.inj h)).2).symm
      · exact absurd h (by simp)
    · simp only [hp, if_false] at h
      exact ((Prod.mk.inj (Option.some.inj h)).2).symm

/-- The branch of `ppage_allocate` that creates a region: when the value of
`can_merge` differs from the first entry `f0` of the free table, the call
returns the address of `f0`, removes `f0` from the free table and appends the
region `{f0, 1, vaddr >> 12, cycle}`. -/
theorem ppage_allocate_new_region (f0 : Nat) (rest : List Nat) (regions : List Allocation)
    (cycle vaddr : Nat)
    (h : (⟨f0 :: rest, regions⟩ : BuddyAllocator).can_merge (vaddr >>> 12) ≠ f0) :
    (⟨f0 :: rest, regions⟩ : BuddyAllocator).ppage_allocate cycle vaddr
      = some (⟨rest, regions ++ [⟨f0, 1, vaddr >>> 12, cycle⟩]⟩, (f0 <<< 12) % U64) := by
  simp [ppage_allocate, get_free_frame, h]

/-- The merge branch of `ppage_allocate`: when the value of `can_merge` equals
the first entry `f0` of the free table and `f0` is a valid index of the free
table, the call returns the address of `f0`, leaves the allocated table as
`merging` made it, and removes the entry at index `f0` from the free table. -/
theorem ppage_allocate_merge_branch (f0 : Nat) (rest : List Nat) (regions : List Allocation)
    (cycle vaddr : Nat)
    (h : (⟨f0 :: rest, regions⟩ : BuddyAllocator).can_merge (vaddr >>> 12) = f0)
    (hlen : f0 < (f0 :: rest).length) :
    (⟨f0 :: rest, regions⟩ : BuddyAllocator).ppage_allocate cycle vaddr
      = some (⟨(f0 :: rest).eraseIdx f0, (merging_scan regions f0 cycle).1⟩,
              (f0 <<< 12) % U64) := by
  simp only [ppage_allocate, get_free_frame, h, if_true, merging]
  rw [if_pos hlen]

/-- What the constructor returns when it returns. -/
theorem construct_eq (dram_size frame_size : Nat) (ba : BuddyAllocator)
    (h : BuddyAllocator.construct dram_size frame_size = some ba) :
    ba = ⟨List.range (dram_size / frame_size + 1), []⟩ := by
  unfold BuddyAllocator.construct at h
  split at h
  · exact absurd h (by simp)
  · simp only at h
    split at h
    · exact absurd h (by simp)
    · exact (Option.some.inj h).symm

/-- The shape of a constructed allocator over at least one frame: the free
table starts with the frames 0 and 1, the remaining entries are 2, ...,
`dram_size / frame_size`, and there is no region. -/
theorem construct_shape (dram_size frame_size : Nat) (ba : BuddyAllocator)
    (h : BuddyAllocator.construct dram_size frame_size = some ba)
    (hframes : 1 ≤ dram_size / frame_size) :
    ba = ⟨0 :: 1 :: List.map (fun i => i + 2) (List.range (dram_size / frame_size - 1)), []⟩ := by
  obtain ⟨m, hm⟩ : ∃ m, dram_size / frame_size = m + 1 := ⟨dram_size / frame_size - 1, by omega⟩
  have hrange : List.range (m + 1 + 1) = 0 :: 1 :: List.map (fun i => i + 2) (List.range m) := by
    rw [List.range_succ_eq_map, List.range_succ_eq_map]
    simp [Function.comp_def]
  rw [construct_eq dram_size frame_size ba h, hm, hrange]
  simp

/-- C10. For every accepted `dram_size` and `frame_size` the constructor leaves the
allocated table empty and the free table equal to the increasing list of the
indices `0, ..., dram_size / frame_size`, the upper bound included: one entry
more than there are frames, the last one being the index
`dram_size / frame_size` that lies outside the frame space. -/
theorem construct_free_frame_table (dram_size frame_size : Nat) (ba : BuddyAllocator)
    (h : BuddyAllocator.construct dram_size frame_size = some ba) :
    ba.free_frame_table = List.range (dram_size / frame_size + 1)
      ∧ ba.free_frame_table.length = dram_size / frame_size + 1
      ∧ dram_size / frame_size ∈ ba.free_frame_table
      ∧ ba.free_frame_table ≠ List.range (dram_size / frame_size)
      ∧ ba.allocated_frame_table = [] := by
  have hba := construct_eq dram_size frame_size ba h
  subst hba
  refine ⟨rfl, by simp, by simp, ?_, rfl⟩
  intro hne
  have := congrArg List.length hne
  simp at this

/-- C10, at 1 MiB of memory in 4096-byte frames: the constructor is accepted and
the free table has 257 entries, the last of them frame index 256. -/
theorem construct_free_frame_table_witness :
    BuddyAllocator.construct 1048576 4096 = some ⟨List.range 257, []⟩
      ∧ ((⟨List.range 257, []⟩ : BuddyAllocator).free_frame_table = List.range (1048576 / 4096 + 1)
        ∧ (⟨List.range 257, []⟩ : BuddyAllocator).free_frame_table.length = 1048576 / 4096 + 1
        ∧ 1048576 / 4096 ∈ (⟨List.range 257, []⟩ : BuddyAllocator).free_frame_table
        ∧ (⟨List.range 257, []⟩ : BuddyAllocator).free_frame_table ≠ List.range (1048576 / 4096)
        ∧ (⟨List.range 257, []⟩ : BuddyAllocator).allocated_frame_table = []) :=
  ⟨rfl, construct_free_frame_table 1048576 4096 ⟨List.range 257, []⟩ rfl⟩

/-- The allocator `BuddyAllocator(8 * 4096, 4096)`: the constructor fills the
free table with the nine indices 0, ..., 8. -/
theorem construct_eight_frames :
    BuddyAllocator.construct 32768 4096 = some ⟨[0, 1, 2, 3, 4, 5, 6, 7, 8], []⟩ := rfl

/-- C2. On `BuddyAllocator(8 * 4096, 4096)` the four calls `ppage_allocate(1, 0x0)`,
`ppage_allocate(2, 0x0)`, `ppage_allocate(3, 0x2000)`, `ppage_allocate(4, 0x5000)`
return the frame addresses 0x0, 0x1000, 0x2000, 0x2000: frame 2 is handed out
twice, by the third and by the fourth call, and after the third call (which
returned it) frame 2 is still the first entry of the free table. -/
theorem ppage_allocate_hands_out_frame_twice :
    (BuddyAllocator.construct 32768 4096).bind
        (fun ba => allocate_all ba [(1, 0x0), (2, 0x0), (3, 0x2000)])
        = some (⟨[2, 3, 5, 6, 7, 8], [⟨1, 2, 0, 3⟩]⟩, [0x0, 0x1000, 0x2000])
      ∧ (BuddyAllocator.construct 32768 4096).bind
          (fun ba => allocate_all ba [(1, 0x0), (2, 0x0), (3, 0x2000), (4, 0x5000)])
        = some (⟨[3, 5, 6, 7, 8], [⟨1, 2, 0, 3⟩, ⟨2, 1, 5, 4⟩]⟩, [0x0, 0x1000, 0x2000, 0x2000])
      ∧ ¬ [0x0, 0x1000, 0x2000, 0x2000].Nodup
      ∧ [0x0, 0x1000, 0x2000, 0x2000].length < 32768 / 4096 := by
  refine ⟨rfl, rfl, by decide, by decide⟩

/-- C5. On every constructed allocator over at least one frame the first call
`ppage_allocate(cycle, vaddr)`, whatever its arguments, returns and leaves a
reachable state in which frame 0 is neither in the free table nor in the frame
range of an allocated region: the partition of `[0, dram_size / frame_size)`
does not hold there. -/
theorem reachable_state_without_partition (dram_size frame_size cycle vaddr : Nat)
    (ba : BuddyAllocator)
    (h : BuddyAllocator.construct dram_size frame_size = some ba)
    (hframes : 1 ≤ dram_size / frame_size) :
    ∃ ba1 frame_address,
      ba.ppage_allocate cycle vaddr = some (ba1, frame_address)
      ∧ Reachable dram_size frame_size ba1
      ∧ 0 ∉ ba1.free_frame_table
      ∧ ¬ ba1.allocated 0
      ∧ ¬ partitioned (dram_size / frame_size) ba1 := by
  have hshape := construct_shape dram_size frame_size ba h hframes
  have hcall : ba.ppage_allocate cycle vaddr
      = some (⟨1 :: List.map (fun i => i + 2) (List.range (dram_size / frame_size - 1)), []⟩,
          0) := by
    rw [hshape]
    simp [ppage_allocate, can_merge, can_merge_scan, get_free_frame, merging, merging_scan]
  have hfree : 0 ∉ 1 :: List.map (fun i => i + 2) (List.range (dram_size / frame_size - 1)) := by
    simp
  have hregion : ¬ (⟨1 :: List.map (fun i => i + 2) (List.range (dram_size / frame_size - 1)),
      []⟩ : BuddyAllocator).allocated 0 := by
    simp [allocated]
  refine ⟨_, _, hcall, ?_, hfree, hregion, ?_⟩
  · exact Reachable.allocate ba _ cycle vaddr 0 (Reachable.constructed ba h) hcall
  · intro hpart
    rcases hpart 0 (by omega) with ⟨hin, _⟩ | ⟨hin, _⟩
    · exact hfree hin
    · exact hregion hin

/-- C5, on `BuddyAllocator(8 * 4096, 4096)` and the call `ppage_allocate(1, 0x0)`. -/
theorem reachable_state_without_partition_witness :
    ∃ ba1 frame_address,
      (⟨[0, 1, 2, 3, 4, 5, 6, 7, 8], []⟩ : BuddyAllocator).ppage_allocate 1 0x0
        = some (ba1, frame_address)
      ∧ Reachable 32768 4096 ba1
      ∧ 0 ∉ ba1.free_frame_table
      ∧ ¬ ba1.allocated 0
      ∧ ¬ partitioned (32768 / 4096) ba1 :=
  reachable_state_without_partition 32768 4096 1 0x0 ⟨[0, 1, 2, 3, 4, 5, 6, 7, 8], []⟩ rfl
    (by decide)

/-- With every region ending below `2 ^ 64`, `merging(0, cycle)` finds no
region: it changes nothing and leaves the function without a value. -/
theorem merging_scan_zero (regions : List Allocation) (cycle : Nat)
    (hregions : ∀ a ∈ regions, a.start_page + a.size + 1 < U64) :
    merging_scan regions 0 cycle = (regions, none) := by
  induction regions with
  | nil => rfl
  | cons a rest ih =>
    have ha : a.start_page + a.size + 1 < U64 := hregions a (List.mem_cons_self a rest)
    have hne : ¬ (0 = (a.start_page + a.size + 1) % U64) := by
      rw [Nat.mod_eq_of_lt ha]
      omega
    have hrest := ih (fun b hb => hregions b (List.mem_cons_of_mem a hb))
    simp [merging_scan, hne, hrest]

/-- C7. In every allocator state with frame 0 first in the free table, regions
that end below `2 ^ 64` and no region eligible for merging with the requested
page (`can_merge` returns 0), `ppage_allocate(cycle, vaddr)` returns frame
address 0 and removes frame 0 from the free table, but the allocated table is
left as it was: no region is created for the frame. -/
theorem ppage_allocate_frame_zero_without_region (rest : List Nat) (regions : List Allocation)
    (cycle vaddr : Nat)
    (hnone : (⟨0 :: rest, regions⟩ : BuddyAllocator).can_merge (vaddr >>> 12) = 0)
    (hregions : ∀ a ∈ regions, a.start_page + a.size + 1 < U64) :
    (⟨0 :: rest, regions⟩ : BuddyAllocator).ppage_allocate cycle vaddr
      = some (⟨rest, regions⟩, 0) := by
  rw [ppage_allocate_merge_branch 0 rest regions cycle vaddr hnone (by simp),
    merging_scan_zero regions cycle hregions]
  rfl

/-- C7, on `BuddyAllocator(8 * 4096, 4096)`: the call `ppage_allocate(1, 0x3000)`
returns frame address 0 and leaves the allocated table empty. -/
theorem ppage_allocate_frame_zero_without_region_witness :
    BuddyAllocator.construct 32768 4096 = some ⟨[0, 1, 2, 3, 4, 5, 6, 7, 8], []⟩
      ∧ (⟨[0, 1, 2, 3, 4, 5, 6, 7, 8], []⟩ : BuddyAllocator).can_merge (0x3000 >>> 12) = 0
      ∧ (⟨[0, 1, 2, 3, 4, 5, 6, 7, 8], []⟩ : BuddyAllocator).ppage_allocate 1 0x3000
        = some (⟨[1, 2, 3, 4, 5, 6, 7, 8], []⟩, 0) :=
  ⟨rfl, rfl,
    ppage_allocate_frame_zero_without_region [1, 2, 3, 4, 5, 6, 7, 8] [] 1 0x3000 rfl
      (by simp)⟩

/-- C8. Every execution of the merge branch of `ppage_allocate` that returns (the
value `f0` of `can_merge` equals the first entry of the free table, and `f0`
is a valid index of the table) returns the address of frame `f0`. For
`f0 != 0` the entry removed from the free table is the one at index `f0`, and
the returned frame `f0` is still the first entry of the free table after the
call. For `f0 = 0`, with every region ending below `2 ^ 64`, `merging` finds
no region: it returns no value and the allocated table is unchanged. -/
theorem merge_branch_misses_region_and_frame (f0 : Nat) (rest : List Nat)
    (regions : List Allocation) (cycle vaddr : Nat)
    (hbranch : (⟨f0 :: rest, regions⟩ : BuddyAllocator).get_free_frame
        ((⟨f0 :: rest, regions⟩ : BuddyAllocator).can_merge (vaddr >>> 12))
      = some ((⟨f0 :: rest, regions⟩ : BuddyAllocator).can_merge (vaddr >>> 12)))
    (hlen : f0 < (f0 :: rest).length) :
    ∃ ba1,
      (⟨f0 :: rest, regions⟩ : BuddyAllocator).ppage_allocate cycle vaddr
        = some (ba1, (f0 <<< 12) % U64)
      ∧ ba1.free_frame_table = (f0 :: rest).eraseIdx f0
      ∧ (f0 ≠ 0 → ba1.free_frame_table.head? = some f0)
      ∧ (f0 = 0 → (∀ a ∈ regions, a.start_page + a.size + 1 < U64) →
          ((⟨f0 :: rest, regions⟩ : BuddyAllocator).merging f0 cycle).2 = none
          ∧ ba1.allocated_frame_table = regions) := by
  have hpref : (⟨f0 :: rest, regions⟩ : BuddyAllocator).can_merge (vaddr >>> 12) = f0 := by
    by_cases hp : (⟨f0 :: rest, regions⟩ : BuddyAllocator).can_merge (vaddr >>> 12) = f0
    · exact hp
    · simp only [get_free_frame, hp, if_false] at hbranch
      exact (Option.some.inj hbranch).symm
  refine ⟨_, ppage_allocate_merge_branch f0 rest regions cycle vaddr hpref hlen, rfl, ?_, ?_⟩
  · intro h0
    obtain ⟨k, hk⟩ : ∃ k, f0 = k + 1 := ⟨f0 - 1, by omega⟩
    simp [hk]
  · intro h0 hregions
    subst h0
    simp [merging, merging_scan_zero regions cycle hregions]

/-- C8, on the reachable state with the free table 2, ..., 8 and the region
`{1, 1, 0, 2}`: `ppage_allocate(3, 0x2000)` takes the merge branch and
returns frame address 0x2000; it removes frame 4, and frame 2 is still first
in the free table. -/
theorem merge_branch_misses_region_and_frame_witness :
    (Reachable 32768 4096 ⟨[2, 3, 4, 5, 6, 7, 8], [⟨1, 1, 0, 2⟩]⟩
      ∧ (⟨[2, 3, 4, 5, 6, 7, 8], [⟨1, 1, 0, 2⟩]⟩ : BuddyAllocator).ppage_allocate 3 0x2000
        = some (⟨[2, 3, 5, 6, 7, 8], [⟨1, 2, 0, 3⟩]⟩, 0x2000))
    ∧ ∃ ba1,
      (⟨[2, 3, 4, 5, 6, 7, 8], [⟨1, 1, 0, 2⟩]⟩ : BuddyAllocator).ppage_allocate 3 0x2000
        = some (ba1, (2 <<< 12) % U64)
      ∧ ba1.free_frame_table = (2 :: [3, 4, 5, 6, 7, 8]).eraseIdx 2
      ∧ (2 ≠ 0 → ba1.free_frame_table.head? = some 2)
      ∧ (2 = 0 → (∀ a ∈ [(⟨1, 1, 0, 2⟩ : Allocation)], a.start_page + a.size + 1 < U64) →
          ((⟨[2, 3, 4, 5, 6, 7, 8], [⟨1, 1, 0, 2⟩]⟩ : BuddyAllocator).merging 2 3).2 = none
          ∧ ba1.allocated_frame_table = [⟨1, 1, 0, 2⟩]) :=
  ⟨⟨Reachable.allocate ⟨[1, 2, 3, 4, 5, 6, 7, 8], []⟩ _ 2 0x0 0x1000
      (Reachable.allocate ⟨[0, 1, 2, 3, 4, 5, 6, 7, 8], []⟩ _ 1 0x0 0x0
        (Reachable.constructed _ rfl) rfl) rfl, rfl⟩,
    merge_branch_misses_region_and_frame 2 [3, 4, 5, 6, 7, 8] [⟨1, 1, 0, 2⟩] 3 0x2000 rfl
      (by decide)⟩

/-- C9. On every constructed allocator over at least one frame, two calls of
`ppage_allocate` in sequence, the second for the page that follows the page
of the first, return the adjacent frames 0 and 1 and leave the allocated
table with a single region of size 1, `{1, 1, second page, second cycle}`:
the two frames are not coalesced into a region of size 2, and frame 0 belongs
to no region. -/
theorem adjacent_requests_are_not_coalesced (dram_size frame_size cycle1 cycle2 vaddr : Nat)
    (ba : BuddyAllocator)
    (h : BuddyAllocator.construct dram_size frame_size = some ba)
    (hframes : 1 ≤ dram_size / frame_size)
    (_hvaddr : vaddr + 4096 < U64) :
    ∃ ba2,
      allocate_all ba [(cycle1, vaddr), (cycle2, vaddr + 4096)] = some (ba2, [0x0, 0x1000])
      ∧ (vaddr + 4096) >>> 12 = vaddr >>> 12 + 1
      ∧ ba2.allocated_frame_table = [⟨1, 1, vaddr >>> 12 + 1, cycle2⟩]
      ∧ ¬ ba2.allocated 0 := by
  have hshape := construct_shape dram_size frame_size ba h hframes
  have hpage : (vaddr + 4096) >>> 12 = vaddr >>> 12 + 1 := by
    rw [Nat.shiftRight_eq_div_pow, Nat.shiftRight_eq_div_pow]
    omega
  refine ⟨⟨List.map (fun i => i + 2) (List.range (dram_size / frame_size - 1)),
    [⟨1, 1, vaddr >>> 12 + 1, cycle2⟩]⟩, ?_, hpage, rfl, ?_⟩
  · rw [hshape]
    simp [allocate_all, ppage_allocate, can_merge, can_merge_scan, get_free_frame, merging,
      merging_scan, hpage, U64]
  · simp [allocated, in_region]

/-- C9, on `BuddyAllocator(8 * 4096, 4096)` with the calls `ppage_allocate(1, 0x0)`
and `ppage_allocate(2, 0x1000)`. -/
theorem adjacent_requests_are_not_coalesced_witness :
    ∃ ba2,
      allocate_all ⟨[0, 1, 2, 3, 4, 5, 6, 7, 8], []⟩ [(1, 0x0), (2, 0x0 + 4096)]
        = some (ba2, [0x0, 0x1000])
      ∧ (0x0 + 4096) >>> 12 = 0x0 >>> 12 + 1
      ∧ ba2.allocated_frame_table = [⟨1, 1, 0x0 >>> 12 + 1, 2⟩]
      ∧ ¬ ba2.allocated 0 :=
  adjacent_requests_are_not_coalesced 32768 4096 1 2 0x0 ⟨[0, 1, 2, 3, 4, 5, 6, 7, 8], []⟩ rfl
    (by decide) (by decide)

/-! ### The scan of `deallocation` -/

/-- Once the scan stands on an entry greater than `start_frame`, it never
finishes: each iteration inserts in front of that entry and then finds the
same entry again one position further. -/
theorem deallocation_scan_greater (fuel : Nat) (free : List Nat) (i start_frame value : Nat)
    (h : i < free.length) (hgt : free.get ⟨i, h⟩ > start_frame) :
    deallocation_scan fuel free i start_frame value = none := by
  induction fuel generalizing free i with
  | zero => rfl
  | succ fuel ih =>
    have hlen : i + 1 < (free.insertIdx i value).length := by
      rw [List.length_insertIdx i free (by omega)]
      omega
    have hget : (free.insertIdx i value).get ⟨i + 1, hlen⟩ = free.get ⟨i, h⟩ := by
      simpa using List.get_insertIdx_add_succ free value i 0 h hlen
    rw [deallocation_scan, dif_pos h, if_pos hgt]
    exact ih (free.insertIdx i value) (i + 1) hlen (by rw [hget]; exact hgt)

/-- A scan that finishes has changed nothing. -/
theorem deallocation_scan_finished (fuel : Nat) (free free1 : List Nat) (i start_frame value : Nat)
    (h : deallocation_scan fuel free i start_frame value = some free1) : free1 = free := by
  induction fuel generalizing i with
  | zero => simp [deallocation_scan] at h
  | succ fuel ih =>
    rw [deallocation_scan] at h
    by_cases hi : i < free.length
    · rw [dif_pos hi] at h
      by_cases hgt : free.get ⟨i, hi⟩ > start_frame
      · rw [if_pos hgt, deallocation_scan_greater fuel _ (i + 1) start_frame value
          (by rw [List.length_insertIdx i free (by omega)]; omega)
          (by
            have := List.get_insertIdx_add_succ free value i 0 hi
              (by rw [List.length_insertIdx i free (by omega)]; omega)
            simp only [Nat.add_zero] at this
            rw [this]; exact hgt)] at h
        exact absurd h (by simp)
      · rw [if_neg hgt] at h
        exact ih (i + 1) h
    · rw [dif_neg hi] at h
      exact (Option.some.inj h).symm

/-- A scan from index `i` over entries that are all at most `start_frame`
finishes within `free.length - i + 1` iterations. -/
theorem deallocation_scan_small (fuel : Nat) (free : List Nat) (i start_frame value : Nat)
    (hsmall : ∀ f ∈ free, f ≤ start_frame) (hfuel : free.length - i < fuel) :
    deallocation_scan fuel free i start_frame value = some free := by
  induction fuel generalizing i with
  | zero => omega
  | succ fuel ih =>
    rw [deallocation_scan]
    by_cases hi : i < free.length
    · have hle : ¬ free.get ⟨i, hi⟩ > start_frame := by
        have := hsmall (free.get ⟨i, hi⟩) (List.get_mem free i hi)
        omega
      rw [dif_pos hi, if_neg hle]
      exact ih (i + 1) (by omega)
    · rw [dif_neg hi]

/-- A scan that reaches an entry greater than `start_frame` never finishes. -/
theorem deallocation_scan_reaches_greater (fuel : Nat) (free : List Nat)
    (i j start_frame value : Nat) (hij : i ≤ j) (hj : j < free.length)
    (hgt : free.get ⟨j, hj⟩ > start_frame) :
    deallocation_scan fuel free i start_frame value = none := by
  induction fuel generalizing i with
  | zero => rfl
  | succ fuel ih =>
    have hi : i < free.length := by omega
    by_cases hhere : free.get ⟨i, hi⟩ > start_frame
    · exact deallocation_scan_greater (fuel + 1) free i start_frame value hi hhere
    · have hne : i ≠ j := by
        intro h
        subst h
        exact hhere hgt
      rw [deallocation_scan, dif_pos hi, if_neg hhere]
      exact ih (i + 1) (by omega)

/-- Up to cycle 10000000 the statements of `deallocation(cycle, index)` change
nothing, whatever the state, the index and the region's last access cycle. -/
theorem deallocation_below_gate (fuel : Nat) (ba : BuddyAllocator) (cycle index : Nat)
    (hcycle : cycle ≤ 10000000) : ba.deallocation fuel cycle index = some ba := by
  unfold deallocation
  rw [if_neg (by omega)]

/-- After cycle 10000000, with a valid region index, no entry of the free table
above the region's start frame and enough fuel for the scan, the statements
of `deallocation(cycle, index)` remove the region's record and leave the free
table as it is, whatever the region's last access cycle. -/
theorem deallocation_above_gate (fuel : Nat) (ba : BuddyAllocator) (cycle index : Nat)
    (hcycle : cycle > 10000000)
    (hindex : index < ba.allocated_frame_table.length)
    (hsmall : ∀ f ∈ ba.free_frame_table,
      f ≤ (ba.allocated_frame_table.get ⟨index, hindex⟩).start_frame)
    (hfuel : ba.free_frame_table.length < fuel) :
    ba.deallocation fuel cycle index
      = some ⟨ba.free_frame_table, ba.allocated_frame_table.eraseIdx index⟩ := by
  unfold deallocation
  rw [if_pos hcycle, dif_pos hindex]
  simp only
  rw [deallocation_scan_small fuel ba.free_frame_table 0 _ _ hsmall (by omega)]

/-- The allocator `BuddyAllocator(4096, 4096)` after `ppage_allocate(0, 0x0)` and
`ppage_allocate(cycle, 0x0)`: the free table is used up and the one region
`{1, 1, 0, cycle}` holds frame 1. -/
theorem reachable_single_region (cycle : Nat) :
    Reachable 4096 4096 ⟨[], [⟨1, 1, 0, cycle⟩]⟩ :=
  Reachable.allocate ⟨[1], []⟩ _ cycle 0x0 0x1000
    (Reachable.allocate ⟨[0, 1], []⟩ _ 0 0x0 0x0 (Reachable.constructed _ rfl) rfl) rfl

/-- C11. The statements of `deallocation` test the cycle count alone and never
read the region's last access cycle. On states with an empty free table and
one region, each left by `BuddyAllocator(4096, 4096)` after two calls of
`ppage_allocate`: of two calls with the same distance 10000000 between
`cycle` and the region's last access cycle, the one at cycle 10000001 removes
the region and the one at cycle 10000000 changes nothing; and a call at cycle
20000001, one cycle after the region's last access, removes the region. -/
theorem deallocation_ignores_last_access :
    (⟨[], [⟨1, 1, 0, 1⟩]⟩ : BuddyAllocator).deallocation 1 10000001 0 = some ⟨[], []⟩
      ∧ (⟨[], [⟨1, 1, 0, 0⟩]⟩ : BuddyAllocator).deallocation 1 10000000 0
        = some ⟨[], [⟨1, 1, 0, 0⟩]⟩
      ∧ 10000001 - 1 = 10000000 - 0
      ∧ (⟨[], [⟨1, 1, 0, 20000000⟩]⟩ : BuddyAllocator).deallocation 1 20000001 0
        = some ⟨[], []⟩
      ∧ 20000001 - 20000000 < 10000000
      ∧ Reachable 4096 4096 ⟨[], [⟨1, 1, 0, 1⟩]⟩
      ∧ Reachable 4096 4096 ⟨[], [⟨1, 1, 0, 0⟩]⟩
      ∧ Reachable 4096 4096 ⟨[], [⟨1, 1, 0, 20000000⟩]⟩ := by
  refine ⟨rfl, rfl, rfl, rfl, by decide, reachable_single_region 1, reachable_single_region 0,
    reachable_single_region 20000000⟩

/-- C12. Every call of `deallocation` that returns leaves the free table exactly
as it was: no frame of the region is inserted, whatever the state, the region
and the cycle. -/
theorem deallocation_returns_no_frame (fuel : Nat) (ba ba1 : BuddyAllocator) (cycle index : Nat)
    (h : ba.deallocation fuel cycle index = some ba1) :
    ba1.free_frame_table = ba.free_frame_table := by
  unfold deallocation at h
  by_cases hcycle : cycle > 10000000
  · rw [if_pos hcycle] at h
    by_cases hindex : index < ba.allocated_frame_table.length
    · rw [dif_pos hindex] at h
      simp only at h
      split at h
      · exact absurd h (by simp)
      · rename_i free hscan
        have hfree := deallocation_scan_finished fuel _ free 0 _ _ hscan
        rw [← Option.some.inj h, hfree]
    · rw [dif_neg hindex] at h
      exact absurd h (by simp)
  · rw [if_neg hcycle] at h
    rw [← Option.some.inj h]

/-- C12, on the reachable state of `BuddyAllocator(4096, 4096)` with an empty
(hence sorted and duplicate-free) free table and the region `{1, 1, 0, 1}`,
at cycle 10000001: the call returns and removes the region's record, and the
region's frame 1 is not in the free table afterwards. -/
theorem deallocation_returns_no_frame_witness :
    Reachable 4096 4096 ⟨[], [⟨1, 1, 0, 1⟩]⟩
      ∧ (⟨[], [⟨1, 1, 0, 1⟩]⟩ : BuddyAllocator).deallocation 1 10000001 0 = some ⟨[], []⟩
      ∧ 1 ∉ (⟨[], []⟩ : BuddyAllocator).free_frame_table
      ∧ (⟨[], []⟩ : BuddyAllocator).free_frame_table
        = (⟨[], [⟨1, 1, 0, 1⟩]⟩ : BuddyAllocator).free_frame_table :=
  ⟨reachable_single_region 1, rfl, by decide,
    deallocation_returns_no_frame 1 ⟨[], [⟨1, 1, 0, 1⟩]⟩ ⟨[], []⟩ 10000001 0 rfl⟩

/-- C17. When `cycle > 10000000`, the region index is valid and some entry of the
free table is greater than the region's start frame, the scan of
`deallocation` does not finish within any number of iterations. -/
theorem deallocation_never_finishes (fuel : Nat) (ba : BuddyAllocator) (cycle index f : Nat)
    (hcycle : cycle > 10000000)
    (hindex : index < ba.allocated_frame_table.length)
    (hf : f ∈ ba.free_frame_table)
    (hgreater : f > (ba.allocated_frame_table.get ⟨index, hindex⟩).start_frame) :
    ba.deallocation fuel cycle index = none := by
  obtain ⟨⟨j, hj⟩, hget⟩ := List.get_of_mem hf
  unfold deallocation
  rw [if_pos hcycle, dif_pos hindex]
  simp only
  rw [deallocation_scan_reaches_greater fuel ba.free_frame_table 0 j _ _ (Nat.zero_le j) hj
    (by rw [hget]; exact hgreater)]

/-- C17, on the state of `BuddyAllocator(8 * 4096, 4096)` after
`ppage_allocate(1, 0x0)` and `ppage_allocate(2, 0x0)`, with the free table
2, ..., 8 and the region `{1, 1, 0, 2}`, at cycle 10000001: the state is
reachable, and a million iterations do not finish the scan. -/
theorem deallocation_never_finishes_witness :
    Reachable 32768 4096 ⟨[2, 3, 4, 5, 6, 7, 8], [⟨1, 1, 0, 2⟩]⟩
      ∧ (⟨[2, 3, 4, 5, 6, 7, 8], [⟨1, 1, 0, 2⟩]⟩ : BuddyAllocator).deallocation 1000000
          10000001 0 = none :=
  ⟨Reachable.allocate ⟨[1, 2, 3, 4, 5, 6, 7, 8], []⟩ _ 2 0x0 0x1000
      (Reachable.allocate ⟨[0, 1, 2, 3, 4, 5, 6, 7, 8], []⟩ _ 1 0x0 0x0
        (Reachable.constructed _ rfl) rfl) rfl,
    deallocation_never_finishes 1000000 ⟨[2, 3, 4, 5, 6, 7, 8], [⟨1, 1, 0, 2⟩]⟩ 10000001 0 2
      (by decide) (by decide) (by decide) (by decide)⟩

/-- C16. On a non-empty free table `get_free_frame(pref_frame)` returns the first
entry of the table for every `pref_frame`; a preferred frame that differs
from the first entry is never returned, also when it occurs further down the
table: with the free table 2, 3, 5, 6, 7, 8 and the region `{1, 2, 0, 3}`,
where `can_merge(3)` prefers frame 3, `get_free_frame(3)` returns frame 2. -/
theorem get_free_frame_returns_first_entry :
    (∀ (f0 : Nat) (rest : List Nat) (regions : List Allocation) (pref_frame : Nat),
        (⟨f0 :: rest, regions⟩ : BuddyAllocator).get_free_frame pref_frame = some f0)
      ∧ (⟨[2, 3, 5, 6, 7, 8], [⟨1, 2, 0, 3⟩]⟩ : BuddyAllocator).can_merge 3 = 3
      ∧ 3 ∈ (⟨[2, 3, 5, 6, 7, 8], [⟨1, 2, 0, 3⟩]⟩ : BuddyAllocator).free_frame_table
      ∧ (⟨[2, 3, 5, 6, 7, 8], [⟨1, 2, 0, 3⟩]⟩ : BuddyAllocator).get_free_frame 3 = some 2 := by
  refine ⟨?_, rfl, by decide, rfl⟩
  intro f0 rest regions pref_frame
  by_cases h : pref_frame = f0 <;> simp [get_free_frame, h]

/-- C15. The constructor tests neither that `frame_size` divides `dram_size` nor
that it is a power of two: two configurations with non-zero frame sizes and
the same quotient `dram_size / frame_size` are constructed alike, so a frame
size that fails either test is treated as one that passes both. -/
theorem construct_without_validation (dram_size frame_size other_dram_size other_frame_size : Nat)
    (hframe : frame_size ≠ 0) (hother : other_frame_size ≠ 0)
    (hcount : dram_size / frame_size = other_dram_size / other_frame_size) :
    BuddyAllocator.construct dram_size frame_size
      = BuddyAllocator.construct other_dram_size other_frame_size := by
  unfold BuddyAllocator.construct
  rw [if_neg hframe, if_neg hother, hcount]

/-- C15, at `BuddyAllocator(10000, 3000)` and `BuddyAllocator(12288, 4096)`: the
frame size 4096 divides 12288 and is a power of two, 3000 fails both tests,
and the two constructions give the same allocator. -/
theorem construct_without_validation_witness :
    (4096 ∣ 12288 ∧ 4096 = 2 ^ lg2 4096 ∧ ¬ (3000 ∣ 10000) ∧ 3000 ≠ 2 ^ lg2 3000
      ∧ (BuddyAllocator.construct 12288 4096).isSome = true)
    ∧ BuddyAllocator.construct 10000 3000 = BuddyAllocator.construct 12288 4096 :=
  ⟨⟨by decide, by decide, by decide, by decide, rfl⟩,
    construct_without_validation 10000 3000 12288 4096 (by decide) (by decide) (by decide)⟩

/-- C15, as stated, fails: `BuddyAllocator(10000, 3000)` completes with the free
table 0, 1, 2, 3 although 3000 does not divide 10000 and is not a power of
two. -/
theorem construct_accepts_invalid_frame_size :
    BuddyAllocator.construct 10000 3000 = some ⟨[0, 1, 2, 3], []⟩
      ∧ ¬ (3000 ∣ 10000)
      ∧ 3000 ≠ 2 ^ lg2 3000 := by
  refine ⟨rfl, by decide, by decide⟩

/-! ## Properties of the translator -/

/-- The example translator is what the constructor and `populate_pages()` give. -/
theorem populated_translator_constructed :
    (VirtualMemory.construct reserve_1MiB 4096 3 200 1081344 0).map (populate_pages reserve_1MiB)
      = some populated_translator := rfl

/-- C1. On the example translator two consecutive calls `va_to_pa(0, 0x1abc)` both
miss: the first returns `(0xabc, 200)` (frame 0), the second `(0x1abc, 200)`
(frame 1); the physical addresses differ and the second fault latency is the
penalty 200, not 0. -/
theorem va_to_pa_repeated_call_misses_again :
    (translate_all reserve_1MiB populated_translator [(7, 0, 0x1abc), (7, 0, 0x1abc)]).map
      (fun r => r.2) = some [(0xabc, 200), (0x1abc, 200)] := rfl

/-- `ppage_pop` leaves the translation table as it is. -/
theorem ppage_pop_vpage_to_ppage_map (X : Externals) (vm vm1 : VirtualMemory)
    (h : vm.ppage_pop X = some vm1) : vm1.vpage_to_ppage_map = vm.vpage_to_ppage_map := by
  unfold ppage_pop at h
  split at h
  · exact absurd h (by simp)
  · simp only at h
    split at h
    · have h1 := (Option.some.inj h).symm
      subst h1
      simp only [shuffle_pages, populate_pages]
      split <;> rfl
    · have h1 := (Option.some.inj h).symm
      subst h1
      rfl

/-- The miss path of `va_to_pa`: when there is no entry under the page key and
`ppage_pop` and `ppage_allocate` return, the call returns the splice of the
allocated frame address with `vaddr` and the penalty, and the frame address
is stored under the key `(cpu_num, vaddr)`. -/
theorem va_to_pa_miss (X : Externals) (vm vm1 : VirtualMemory)
    (ba : BuddyAllocator) (cycle cpu_num vaddr frame_address : Nat)
    (hmiss : vm.vpage_to_ppage_map (cpu_num, vaddr >>> LOG2_PAGE_SIZE) = none)
    (hpop : vm.ppage_pop X = some vm1)
    (halloc : vm1.BA.ppage_allocate cycle vaddr = some (ba, frame_address)) :
    vm.va_to_pa X cycle cpu_num vaddr
      = some ({ vm1 with
                BA := ba,
                vpage_to_ppage_map :=
                  map_assign vm1.vpage_to_ppage_map (cpu_num, vaddr) frame_address },
              (splice_bits frame_address vaddr LOG2_PAGE_SIZE, vm.minor_fault_penalty)) := by
  have htouch : map_touch (map_assign vm1.vpage_to_ppage_map (cpu_num, vaddr) frame_address)
      (cpu_num, vaddr) = map_assign vm1.vpage_to_ppage_map (cpu_num, vaddr) frame_address := by
    funext key
    by_cases hk : key = (cpu_num, vaddr) <;> simp [map_touch, map_assign, map_index, hk]
  have hindex : map_index (map_assign vm1.vpage_to_ppage_map (cpu_num, vaddr) frame_address)
      (cpu_num, vaddr) = frame_address := by
    simp [map_assign, map_index]
  simp only [va_to_pa, hmiss, hpop, halloc, Option.isNone_none, if_true, htouch, hindex]

/-- The hit path of `va_to_pa`: when there is an entry under the page key, the
call charges nothing and returns the splice of `vaddr` with the value read
under the key `(cpu_num, vaddr)`, which is 0 when that key has no entry. -/
theorem va_to_pa_hit (X : Externals) (vm : VirtualMemory) (cycle cpu_num vaddr entry : Nat)
    (hhit : vm.vpage_to_ppage_map (cpu_num, vaddr >>> LOG2_PAGE_SIZE) = some entry) :
    vm.va_to_pa X cycle cpu_num vaddr
      = some ({ vm with
                vpage_to_ppage_map := map_touch vm.vpage_to_ppage_map (cpu_num, vaddr) },
              (splice_bits (map_index vm.vpage_to_ppage_map (cpu_num, vaddr)) vaddr
                LOG2_PAGE_SIZE, 0)) := by
  simp [va_to_pa, hhit]

/-- The value returned by `ppage_allocate` is a 64-bit value. -/
theorem ppage_allocate_lt (ba ba1 : BuddyAllocator) (cycle vaddr frame_address : Nat)
    (h : ba.ppage_allocate cycle vaddr = some (ba1, frame_address)) : frame_address < U64 := by
  obtain ⟨f0, rest, _, hfa⟩ := ppage_allocate_returns_first_entry ba ba1 cycle vaddr _ h
  rw [hfa]
  exact Nat.mod_lt _ (by decide)

/-- The offset half of the splice: every physical address that `va_to_pa`
returns has the in-page offset of `vaddr`. -/
theorem va_to_pa_offset (X : Externals) (vm vm2 : VirtualMemory)
    (cycle cpu_num vaddr paddr latency : Nat)
    (h : vm.va_to_pa X cycle cpu_num vaddr = some (vm2, (paddr, latency))) :
    paddr &&& (PAGE_SIZE - 1) = vaddr &&& (PAGE_SIZE - 1) := by
  have hlow : ∀ upper, splice_bits upper vaddr LOG2_PAGE_SIZE &&& (PAGE_SIZE - 1)
      = vaddr &&& (PAGE_SIZE - 1) := fun upper =>
    splice_bits_low upper vaddr LOG2_PAGE_SIZE (by decide)
  cases hentry : vm.vpage_to_ppage_map (cpu_num, vaddr >>> LOG2_PAGE_SIZE) with
  | some entry =>
    rw [va_to_pa_hit X vm cycle cpu_num vaddr entry hentry] at h
    rw [← (Prod.mk.inj (Prod.mk.inj (Option.some.inj h)).2).1]
    exact hlow _
  | none =>
    cases hpop : vm.ppage_pop X with
    | none => simp [va_to_pa, hentry, hpop] at h
    | some vm1 =>
      cases halloc : vm1.BA.ppage_allocate cycle vaddr with
      | none => simp [va_to_pa, hentry, hpop, halloc] at h
      | some result =>
        obtain ⟨ba, frame_address⟩ := result
        rw [va_to_pa_miss X vm vm1 ba cycle cpu_num vaddr frame_address hentry hpop halloc] at h
        rw [← (Prod.mk.inj (Prod.mk.inj (Option.some.inj h)).2).1]
        exact hlow _

/-- The frame half of the splice on a miss: the physical address returned has
the frame number of the address that `ppage_allocate` just returned. -/
theorem va_to_pa_miss_frame (X : Externals) (vm vm1 : VirtualMemory)
    (ba : BuddyAllocator) (cycle cpu_num vaddr frame_address : Nat)
    (hmiss : vm.vpage_to_ppage_map (cpu_num, vaddr >>> LOG2_PAGE_SIZE) = none)
    (hpop : vm.ppage_pop X = some vm1)
    (halloc : vm1.BA.ppage_allocate cycle vaddr = some (ba, frame_address)) :
    ∃ vm2 paddr,
      vm.va_to_pa X cycle cpu_num vaddr = some (vm2, (paddr, vm.minor_fault_penalty))
      ∧ paddr >>> LOG2_PAGE_SIZE = frame_address >>> LOG2_PAGE_SIZE :=
  ⟨_, _, va_to_pa_miss X vm vm1 ba cycle cpu_num vaddr frame_address hmiss hpop halloc,
    splice_bits_high frame_address vaddr LOG2_PAGE_SIZE (by decide)
      (ppage_allocate_lt vm1.BA ba cycle vaddr frame_address halloc)⟩

/-- C6. A call `va_to_pa(cpu_num, vaddr)` that misses (no entry under the page
key `(cpu_num, vaddr >> 12)`) at `vaddr != 0`, and whose `ppage_pop` and
`ppage_allocate` return, charges the penalty and returns; afterwards there is
still no entry under the page key `(cpu_num, vaddr >> 12)`, the frame address
just allocated is stored under the other key `(cpu_num, vaddr)`, and every
further key is as before. -/
theorem va_to_pa_miss_stores_under_raw_address (X : Externals) (vm vm1 : VirtualMemory)
    (ba : BuddyAllocator) (cycle cpu_num vaddr frame_address : Nat)
    (hmiss : vm.vpage_to_ppage_map (cpu_num, vaddr >>> LOG2_PAGE_SIZE) = none)
    (hvaddr : vaddr ≠ 0)
    (hpop : vm.ppage_pop X = some vm1)
    (halloc : vm1.BA.ppage_allocate cycle vaddr = some (ba, frame_address)) :
    ∃ vm2 paddr,
      vm.va_to_pa X cycle cpu_num vaddr = some (vm2, (paddr, vm.minor_fault_penalty))
      ∧ (cpu_num, vaddr >>> LOG2_PAGE_SIZE) ≠ (cpu_num, vaddr)
      ∧ vm2.vpage_to_ppage_map (cpu_num, vaddr >>> LOG2_PAGE_SIZE) = none
      ∧ vm2.vpage_to_ppage_map (cpu_num, vaddr) = some frame_address
      ∧ ∀ key, key ≠ (cpu_num, vaddr) → vm2.vpage_to_ppage_map key = vm.vpage_to_ppage_map key := by
  have hmap := ppage_pop_vpage_to_ppage_map X vm vm1 hpop
  have hne : vaddr >>> LOG2_PAGE_SIZE ≠ vaddr := by
    rw [Nat.shiftRight_eq_div_pow]
    have : vaddr / 2 ^ LOG2_PAGE_SIZE < vaddr :=
      Nat.div_lt_self (Nat.pos_of_ne_zero hvaddr) (by decide)
    omega
  have hkey : (cpu_num, vaddr >>> LOG2_PAGE_SIZE) ≠ (cpu_num, vaddr) := by
    intro h
    exact hne (Prod.mk.inj h).2
  refine ⟨_, _, va_to_pa_miss X vm vm1 ba cycle cpu_num vaddr frame_address hmiss hpop halloc,
    hkey, ?_, ?_, ?_⟩
  · simp [map_assign, hkey, hmap, hmiss]
  · simp [map_assign]
  · intro key hk
    simp [map_assign, hk, hmap]

/-- C6, on the example translator: `va_to_pa(0, 0x1abc)` returns, leaves no entry
under the page key `(0, 1)` and stores frame address 0 under `(0, 0x1abc)`. -/
theorem va_to_pa_miss_stores_under_raw_address_witness :
    ∃ vm2 paddr,
      populated_translator.va_to_pa reserve_1MiB 7 0 0x1abc
        = some (vm2, (paddr, populated_translator.minor_fault_penalty))
      ∧ ((0, 0x1abc >>> LOG2_PAGE_SIZE) : Nat × Nat) ≠ (0, 0x1abc)
      ∧ vm2.vpage_to_ppage_map (0, 0x1abc >>> LOG2_PAGE_SIZE) = none
      ∧ vm2.vpage_to_ppage_map (0, 0x1abc) = some 0
      ∧ ∀ key, key ≠ (0, 0x1abc) →
          vm2.vpage_to_ppage_map key = populated_translator.vpage_to_ppage_map key :=
  va_to_pa_miss_stores_under_raw_address reserve_1MiB populated_translator _ _ 7 0 0x1abc 0
    rfl (by decide) rfl rfl

/-- C4. On the example translator the calls `va_to_pa(0, 0x2abc)`, `va_to_pa(0, 0x1)`
and `va_to_pa(0, 0x1def)` return `(0xabc, 200)`, `(0x1001, 200)` and
`(0xdef, 0)`. The third call hits on the entry of virtual page 1 of core 0,
which holds frame address 0x1000 (frame 1), but the address it returns has
frame number 0: the in-page offset 0xdef is kept, the frame is not the one
mapped to the page. -/
theorem va_to_pa_hit_returns_other_frame :
    (translate_all reserve_1MiB populated_translator
        [(7, 0, 0x2abc), (7, 0, 0x1), (7, 0, 0x1def)]).map
      (fun r => (r.2, r.1.vpage_to_ppage_map (0, 0x1def >>> LOG2_PAGE_SIZE)))
      = some ([(0xabc, 200), (0x1001, 200), (0xdef, 0)], some 0x1000)
    ∧ 0xdef &&& (PAGE_SIZE - 1) = 0x1def &&& (PAGE_SIZE - 1)
    ∧ 0xdef >>> LOG2_PAGE_SIZE ≠ 0x1000 >>> LOG2_PAGE_SIZE := by
  refine ⟨rfl, by decide, by decide⟩

/-- The scenario translator is what the constructor and `populate_pages()` give
for 1 MiB of memory. -/
theorem scenario_translator_constructed :
    (VirtualMemory.construct reserve_none 4096 3 200 1048576 0).map (populate_pages reserve_none)
      = some scenario_translator := rfl

/-- C3. With 1 MiB of memory in 4096-byte frames all 257 translations of the 257
distinct pages 0, ..., 256 return: the 257th is served the frame address
0x100000 of frame 256, one past the 256 frames of the memory, and only then
is the free table empty. The same holds for 257 calls of `ppage_allocate` on
the constructed allocator. On an empty free table the execution of
`ppage_allocate` is undefined (it reads `free_frame_table[0]`); no error
value is produced. -/
theorem exhaustion_is_not_surfaced :
    (translate_all reserve_none scenario_translator scenario_requests).map
        (fun r => (r.1.BA.free_frame_table, r.2.length, r.2.getLast?))
      = some ([], 257, some (0x100000, 200))
    ∧ scenario_requests.Nodup
    ∧ ((BuddyAllocator.construct 1048576 4096).bind (fun ba =>
          allocate_all ba (List.map (fun page => (7, page * 4096)) (List.range 257)))).map
        (fun r => (r.1.free_frame_table, r.2.length, r.2.getLast?))
      = some ([], 257, some 0x100000)
    ∧ ∀ (regions : List Allocation) (cycle vaddr : Nat),
        (⟨[], regions⟩ : BuddyAllocator).ppage_allocate cycle vaddr = none := by
  refine ⟨by decide!, ?_, by decide!, ?_⟩
  · refine List.Nodup.map ?_ (List.nodup_range 257)
    intro p q hpq
    have h := (Prod.mk.inj (Prod.mk.inj hpq).2).2
    omega
  · intro regions cycle vaddr
    rfl

/-! ### Logarithms of the configuration -/

/-- The halving loop counts at most as many halvings as it has steps. -/
theorem lg2_halve_le (steps n : Nat) : lg2_halve steps n ≤ steps := by
  induction steps generalizing n with
  | zero => simp [lg2_halve]
  | succ steps ih =>
    rw [lg2_halve]
    split
    · omega
    · have := ih (n / 2)
      omega

/-- The halving loop finds the exponent of a power of two that its steps can
reach. -/
theorem lg2_halve_two_pow (steps k : Nat) (h : k < steps) : lg2_halve steps (2 ^ k) = k := by
  induction steps generalizing k with
  | zero => omega
  | succ steps ih =>
    rw [lg2_halve]
    cases k with
    | zero => simp
    | succ k =>
      have hgt : ¬ 2 ^ (k + 1) ≤ 1 := by
        have : 0 < 2 ^ k := Nat.two_pow_pos k
        rw [Nat.pow_succ]
        omega
      have hhalf : 2 ^ (k + 1) / 2 = 2 ^ k := by
        rw [Nat.pow_succ]
        exact Nat.mul_div_cancel _ (by decide)
      rw [if_neg hgt, hhalf, ih k (by omega)]

/-- `lg2` of a 64-bit power of two is its exponent. -/
theorem lg2_two_pow (k : Nat) (h : k ≤ 63) : lg2 (2 ^ k) = k :=
  lg2_halve_two_pow 64 k (by omega)

/-- `lg2` of the fan-out of a page-table page of `2 ^ k` bytes. -/
theorem lg2_fanout (k : Nat) (h3 : 3 ≤ k) (h63 : k ≤ 63) : lg2 (2 ^ k / PTE_BYTES) = k - 3 := by
  have h : 2 ^ k / PTE_BYTES = 2 ^ (k - 3) := by
    have hk : k = (k - 3) + 3 := by omega
    rw [hk, Nat.pow_add]
    simp [PTE_BYTES]
  rw [h]
  exact lg2_two_pow (k - 3) (by omega)


/-! ### The constructor of the translator -/

/-- What a completed construction of the translator has checked and set. -/
theorem construct_completed (X : Externals) (page_table_page_size page_table_levels minor_penalty
    dram_size seed : Nat) (vm : VirtualMemory)
    (h : VirtualMemory.construct X page_table_page_size page_table_levels minor_penalty dram_size
      seed = some vm) :
    (LOG2_PAGE_SIZE + lg2 (page_table_page_size / PTE_BYTES) * page_table_levels) % U64 < 64
      ∧ vm.last_ppage
        = 2 ^ ((LOG2_PAGE_SIZE + lg2 (page_table_page_size / PTE_BYTES) * page_table_levels)
            % U64)
      ∧ vm.ppage_free_list = []
      ∧ vm.vpage_to_ppage_map = (fun _ => none)
      ∧ vm.pte_page_size = page_table_page_size
      ∧ page_table_page_size > 1024
      ∧ page_table_page_size = 2 ^ lg2 page_table_page_size := by
  unfold VirtualMemory.construct at h
  simp only at h
  split at h
  · exact absurd h (by simp)
  · rename_i hbits
    split at h
    · exact absurd h (by simp)
    · split at h
      · rename_i hassert
        have hvm := (Option.some.inj h).symm
        subst hvm
        exact ⟨by omega, rfl, rfl, rfl, rfl, hassert.1, hassert.2.1⟩
      · exact absurd h (by simp)

/-- C20. No construction of the translator that completes takes the branch
`required_bits > 64`, whatever the derived virtual address width
`log2(page_size) + levels * log2(page_table_page_size / pte_bytes)` of the
configuration: `required_bits` is the logarithm of a 64-bit value. -/
theorem width_warning_never_taken (X : Externals) (page_table_page_size page_table_levels
    minor_penalty dram_size seed : Nat) (warnings : Bool × Bool)
    (h : construct_warnings X page_table_page_size page_table_levels minor_penalty dram_size seed
      = some warnings) :
    warnings.1 = false := by
  unfold construct_warnings at h
  split at h
  · exact absurd h (by simp)
  · rename_i vm hvm
    have hw := (Option.some.inj h).symm
    subst hw
    have hle : lg2 vm.last_ppage ≤ 64 := lg2_halve_le 64 vm.last_ppage
    simp only [decide_eq_false_iff_not]
    omega

/-- C20, at `VirtualMemory(4096, 2049638230412172403, 200, dram)` with 1 MiB
reserved and a memory of 1081344 bytes: the derived width exceeds 64, the
shift amount wraps around to 23, every assertion holds and the construction
completes, and the branch `required_bits > 64` is not taken (the branch of
the physical width is). -/
theorem width_warning_never_taken_witness :
    (construct_warnings reserve_1MiB 4096 2049638230412172403 200 1081344 0 = some (false, true)
      ∧ 64 < LOG2_PAGE_SIZE + lg2 (4096 / PTE_BYTES) * 2049638230412172403
      ∧ 2049638230412172403 < U64)
    ∧ (false, true).1 = false :=
  ⟨⟨by decide!, by decide!, by decide!⟩,
    width_warning_never_taken reserve_1MiB 4096 2049638230412172403 200 1081344 0 (false, true)
      (by decide!)⟩


/-! ### What the phases of `get_pte_pa` leave unchanged -/

/-- The first statement of `get_pte_pa` changes the allocator and the cursor
only. -/
theorem pte_cursor_init_unchanged (vm vm1 : VirtualMemory) (cycle vaddr : Nat)
    (h : vm.pte_cursor_init cycle vaddr = some vm1) :
    vm1.page_table = vm.page_table
      ∧ vm1.pte_page_size = vm.pte_page_size
      ∧ vm1.ppage_free_list = vm.ppage_free_list
      ∧ vm1.vpage_to_ppage_map = vm.vpage_to_ppage_map := by
  unfold pte_cursor_init at h
  split at h
  · split at h
    · exact absurd h (by simp)
    · have hvm := (Option.some.inj h).symm
      subst hvm
      exact ⟨rfl, rfl, rfl, rfl⟩
  · have hvm := (Option.some.inj h).symm
    subst hvm
    exact ⟨rfl, rfl, rfl, rfl⟩

/-- The body of `if (fault)` changes the cursor, the allocator and the
translation table only. -/
theorem pte_cursor_advance_unchanged (vm vm1 : VirtualMemory) (cycle cpu_num vaddr : Nat)
    (h : vm.pte_cursor_advance cycle cpu_num vaddr = some vm1) :
    vm1.page_table = vm.page_table
      ∧ vm1.pte_page_size = vm.pte_page_size
      ∧ vm1.ppage_free_list = vm.ppage_free_list := by
  unfold pte_cursor_advance at h
  simp only at h
  split at h
  · split at h
    · exact absurd h (by simp)
    · have hvm := (Option.some.inj h).symm
      subst hvm
      exact ⟨rfl, rfl, rfl⟩
  · have hvm := (Option.some.inj h).symm
    subst hvm
    exact ⟨rfl, rfl, rfl⟩

/-- `get_offset` where the shift is defined. -/
theorem get_offset_defined (vm : VirtualMemory) (vaddr level : Nat) (h : vm.shamt level < 64) :
    vm.get_offset vaddr level
      = some ((vaddr >>> vm.shamt level) &&& bitmask (lg2 (vm.pte_page_size / PTE_BYTES))) := by
  unfold get_offset
  rw [if_neg (by omega)]

/-- The result of `get_pte_pa` on a hit: the entry under the key is spliced
with the scaled offset, nothing is charged, and only the first statement has
changed the state. -/
theorem get_pte_pa_hit (vm vm0 : VirtualMemory) (cycle cpu_num vaddr level entry : Nat)
    (hinit : vm.pte_cursor_init cycle vaddr = some vm0)
    (hshamt : vm0.shamt level < 64)
    (hentry : vm0.page_table (cpu_num, vaddr >>> vm0.shamt level, level) = some entry) :
    vm.get_pte_pa cycle cpu_num vaddr level
      = some (vm0,
          (splice_bits entry
            ((((vaddr >>> vm0.shamt level) &&& bitmask (lg2 (vm0.pte_page_size / PTE_BYTES)))
              * PTE_BYTES) % U64) (lg2 vm0.pte_page_size), 0)) := by
  have hs : ¬ 64 ≤ vm0.shamt level := by omega
  unfold get_pte_pa
  rw [hinit]
  dsimp only
  rw [if_neg hs, hentry]
  simp only [Option.isNone_some, Bool.false_eq_true, if_false, Option.getD_some,
    get_offset_defined vm0 vaddr level hshamt]

/-- The result of `get_pte_pa` on a miss whose cursor advance returns: the
cursor of the moment is recorded under the key and spliced with the scaled
offset, and the penalty is charged. -/
theorem get_pte_pa_miss (vm vm0 vm2 : VirtualMemory) (cycle cpu_num vaddr level : Nat)
    (hinit : vm.pte_cursor_init cycle vaddr = some vm0)
    (hshamt : vm0.shamt level < 64)
    (hentry : vm0.page_table (cpu_num, vaddr >>> vm0.shamt level, level) = none)
    (hadvance : pte_cursor_advance
        { vm0 with
          page_table :=
            map_assign vm0.page_table (cpu_num, vaddr >>> vm0.shamt level, level)
              vm0.next_pte_page }
        cycle cpu_num vaddr = some vm2) :
    vm.get_pte_pa cycle cpu_num vaddr level
      = some (vm2,
          (splice_bits vm0.next_pte_page
            ((((vaddr >>> vm0.shamt level) &&& bitmask (lg2 (vm0.pte_page_size / PTE_BYTES)))
              * PTE_BYTES) % U64) (lg2 vm0.pte_page_size), vm.minor_fault_penalty)) := by
  have hs : ¬ 64 ≤ vm0.shamt level := by omega
  have hsize : vm2.pte_page_size = vm0.pte_page_size :=
    (pte_cursor_advance_unchanged _ vm2 cycle cpu_num vaddr hadvance).2.1
  have hshamt2 : vm2.shamt level < 64 := by
    unfold shamt at hshamt ⊢
    rw [hsize]
    exact hshamt
  have hoffset := get_offset_defined vm2 vaddr level hshamt2
  have hsame : vm2.shamt level = vm0.shamt level := by
    unfold shamt
    rw [hsize]
  rw [hsame, hsize] at hoffset
  unfold get_pte_pa
  rw [hinit]
  dsimp only
  rw [if_neg hs, hentry]
  simp only [Option.isNone_none, if_true, Option.getD_none, hadvance, hoffset, hsize]

/-- `get_pte_pa` has no defined result when its first statement has none, when
the shift of the key is undefined, or when the cursor advance of a miss has
none. -/
theorem get_pte_pa_undefined (vm : VirtualMemory) (cycle cpu_num vaddr level : Nat) :
    (vm.pte_cursor_init cycle vaddr = none → vm.get_pte_pa cycle cpu_num vaddr level = none)
      ∧ (∀ vm0, vm.pte_cursor_init cycle vaddr = some vm0 → 64 ≤ vm0.shamt level →
          vm.get_pte_pa cycle cpu_num vaddr level = none)
      ∧ (∀ vm0, vm.pte_cursor_init cycle vaddr = some vm0 → vm0.shamt level < 64 →
          vm0.page_table (cpu_num, vaddr >>> vm0.shamt level, level) = none →
          pte_cursor_advance
            { vm0 with
              page_table :=
                map_assign vm0.page_table (cpu_num, vaddr >>> vm0.shamt level, level)
                  vm0.next_pte_page }
            cycle cpu_num vaddr = none →
          vm.get_pte_pa cycle cpu_num vaddr level = none) := by
  refine ⟨?_, ?_, ?_⟩
  · intro hinit
    unfold get_pte_pa
    rw [hinit]
  · intro vm0 hinit hs
    unfold get_pte_pa
    rw [hinit]
    dsimp only
    rw [if_pos hs]
  · intro vm0 hinit hshamt hentry hadvance
    have hs : ¬ 64 ≤ vm0.shamt level := by omega
    unfold get_pte_pa
    rw [hinit]
    dsimp only
    rw [if_neg hs, hentry]
    simp only [Option.isNone_none, if_true, hadvance]

/-- `get_pte_pa` does not touch `ppage_free_list`. -/
theorem get_pte_pa_ppage_free_list (vm vm1 : VirtualMemory) (cycle cpu_num vaddr level : Nat)
    (result : Nat × Nat) (h : vm.get_pte_pa cycle cpu_num vaddr level = some (vm1, result)) :
    vm1.ppage_free_list = vm.ppage_free_list := by
  have hund := get_pte_pa_undefined vm cycle cpu_num vaddr level
  cases hinit : vm.pte_cursor_init cycle vaddr with
  | none => rw [hund.1 hinit] at h; exact absurd h (by simp)
  | some vm0 =>
    have h0 := (pte_cursor_init_unchanged vm vm0 cycle vaddr hinit).2.2.1
    by_cases hs : 64 ≤ vm0.shamt level
    · rw [hund.2.1 vm0 hinit hs] at h; exact absurd h (by simp)
    · have hshamt : vm0.shamt level < 64 := by omega
      cases hentry : vm0.page_table (cpu_num, vaddr >>> vm0.shamt level, level) with
      | some entry =>
        rw [get_pte_pa_hit vm vm0 cycle cpu_num vaddr level entry hinit hshamt hentry] at h
        rw [← (Prod.mk.inj (Option.some.inj h)).1, h0]
      | none =>
        cases hadvance : pte_cursor_advance
            { vm0 with
              page_table :=
                map_assign vm0.page_table (cpu_num, vaddr >>> vm0.shamt level, level)
                  vm0.next_pte_page }
            cycle cpu_num vaddr with
        | none =>
          rw [hund.2.2 vm0 hinit hshamt hentry hadvance] at h; exact absurd h (by simp)
        | some vm2 =>
          rw [get_pte_pa_miss vm vm0 vm2 cycle cpu_num vaddr level hinit hshamt hentry
            hadvance] at h
          rw [← (Prod.mk.inj (Option.some.inj h)).1,
            (pte_cursor_advance_unchanged _ vm2 cycle cpu_num vaddr hadvance).2.2, ← h0]

/-- A call of `va_to_pa` that returns on an empty `ppage_free_list` was a hit
and leaves the list empty. -/
theorem va_to_pa_ppage_free_list (X : Externals) (vm vm1 : VirtualMemory)
    (cycle cpu_num vaddr : Nat) (result : Nat × Nat)
    (hempty : vm.ppage_free_list = [])
    (h : vm.va_to_pa X cycle cpu_num vaddr = some (vm1, result)) :
    vm1.ppage_free_list = [] := by
  cases hentry : vm.vpage_to_ppage_map (cpu_num, vaddr >>> LOG2_PAGE_SIZE) with
  | some entry =>
    rw [va_to_pa_hit X vm cycle cpu_num vaddr entry hentry] at h
    rw [← (Prod.mk.inj (Option.some.inj h)).1]
    exact hempty
  | none =>
    have hpop : vm.ppage_pop X = none := by simp [ppage_pop, hempty]
    simp [va_to_pa, hentry, hpop] at h

/-- In every reachable state of the translator `ppage_free_list` is empty. -/
theorem reachable_ppage_free_list (X : Externals) (page_table_page_size page_table_levels
    minor_penalty dram_size seed : Nat) (vm : VirtualMemory)
    (h : ReachableState X page_table_page_size page_table_levels minor_penalty dram_size seed vm) :
    vm.ppage_free_list = [] := by
  induction h with
  | constructed vm hvm => exact (construct_completed X _ _ _ _ _ vm hvm).2.2.1
  | translate vm vm1 cycle cpu_num vaddr result _ hcall ih =>
    exact va_to_pa_ppage_free_list X vm vm1 cycle cpu_num vaddr result ih hcall
  | walk vm vm1 cycle cpu_num vaddr level result _ hcall ih =>
    rw [get_pte_pa_ppage_free_list vm vm1 cycle cpu_num vaddr level result hcall]
    exact ih

/-- C18. In every state of the translator that is reachable from the constructor
by calls of `va_to_pa` and `get_pte_pa`, `ppage_free_list` is empty, so a
call `va_to_pa(cpu_num, vaddr)` that misses finds the list empty when it
calls `ppage_pop`: `pop_front` runs without its precondition and the call has
no defined result. -/
theorem miss_pops_empty_list (X : Externals) (page_table_page_size page_table_levels
    minor_penalty dram_size seed : Nat) (vm : VirtualMemory) (cycle cpu_num vaddr : Nat)
    (hreach : ReachableState X page_table_page_size page_table_levels minor_penalty dram_size
      seed vm)
    (hmiss : vm.vpage_to_ppage_map (cpu_num, vaddr >>> LOG2_PAGE_SIZE) = none) :
    vm.ppage_free_list = []
      ∧ vm.ppage_pop X = none
      ∧ vm.va_to_pa X cycle cpu_num vaddr = none := by
  have hempty := reachable_ppage_free_list X _ _ _ _ _ vm hreach
  have hpop : vm.ppage_pop X = none := by simp [ppage_pop, hempty]
  exact ⟨hempty, hpop, by simp [va_to_pa, hmiss, hpop]⟩

/-- C18, on the translator `VirtualMemory(4096, 3, 200, dram)` over 1 MiB + 8 pages
as the constructor leaves it, with the call `va_to_pa(0, 0x1000)`. -/
theorem miss_pops_empty_list_witness :
    VirtualMemory.construct reserve_1MiB 4096 3 200 1081344 0 = some constructed_translator
      ∧ constructed_translator.ppage_free_list = []
      ∧ constructed_translator.ppage_pop reserve_1MiB = none
      ∧ constructed_translator.va_to_pa reserve_1MiB 7 0 0x1000 = none :=
  ⟨rfl, miss_pops_empty_list reserve_1MiB 4096 3 200 1081344 0 constructed_translator 7 0 0x1000
    (ReachableState.constructed _ rfl) rfl⟩

/-! ### Splicing the offset into a page-table node -/

/-- `bitmask` of at most 64 bits. -/
theorem bitmask_eq (bits : Nat) (hb : bits ≤ 64) : bitmask bits = 2 ^ bits - 1 := by
  unfold bitmask U64
  have : 2 ^ bits ≤ 2 ^ 64 := Nat.pow_le_pow_right (by decide) hb
  have : 0 < 2 ^ bits := Nat.two_pow_pos bits
  exact Nat.mod_eq_of_lt (by omega)

/-- Splicing a value below `2 ^ k` into a 64-bit node address: the result is
the node address rounded down to a multiple of `2 ^ k`, with the value in
the low `k` bits. -/
theorem splice_bits_node (node value k : Nat) (hk : k ≤ 64) (hnode : node < U64)
    (hvalue : value < 2 ^ k) :
    splice_bits node value k = node / 2 ^ k * 2 ^ k ||| value
      ∧ splice_bits node value k = node / 2 ^ k * 2 ^ k + value
      ∧ splice_bits node value k % 2 ^ k = value
      ∧ splice_bits node value k / 2 ^ k = node / 2 ^ k := by
  have hlow : splice_bits node value k % 2 ^ k = value := by
    have h := splice_bits_low node value k hk
    rw [bitmask_eq k hk, Nat.and_pow_two_sub_one_eq_mod, Nat.and_pow_two_sub_one_eq_mod,
      Nat.mod_eq_of_lt hvalue] at h
    exact h
  have hhigh : splice_bits node value k / 2 ^ k = node / 2 ^ k := by
    have h := splice_bits_high node value k hk hnode
    rw [Nat.shiftRight_eq_div_pow, Nat.shiftRight_eq_div_pow] at h
    exact h
  have hsum : splice_bits node value k = node / 2 ^ k * 2 ^ k + value := by
    have h := Nat.div_add_mod (splice_bits node value k) (2 ^ k)
    rw [hlow, hhigh] at h
    rw [← h, Nat.mul_comm]
  refine ⟨?_, hsum, hlow, hhigh⟩
  rw [hsum, Nat.mul_comm]
  exact Nat.mul_add_lt_is_or hvalue _

/-- The offset of a page-table page of `2 ^ k` bytes, `3 ≤ k ≤ 63`: the mask of
`get_offset` is the fan-out minus one, and the offset scaled by the entry
size stays below the size of the page-table page. -/
theorem offset_fits (size k shifted : Nat) (hsize : size = 2 ^ k) (h3 : 3 ≤ k) (h63 : k ≤ 63) :
    bitmask (lg2 (size / PTE_BYTES)) = size / PTE_BYTES - 1
      ∧ (shifted &&& bitmask (lg2 (size / PTE_BYTES))) * PTE_BYTES < size
      ∧ ((shifted &&& bitmask (lg2 (size / PTE_BYTES))) * PTE_BYTES) % U64
        = (shifted &&& bitmask (lg2 (size / PTE_BYTES))) * PTE_BYTES := by
  have hfan : size / PTE_BYTES = 2 ^ (k - 3) := by
    have hk : k = (k - 3) + 3 := by omega
    rw [hsize, hk, Nat.pow_add]
    simp [PTE_BYTES]
  have hlg : lg2 (size / PTE_BYTES) = k - 3 := by
    rw [hsize]
    exact lg2_fanout k h3 h63
  have hmask : bitmask (lg2 (size / PTE_BYTES)) = 2 ^ (k - 3) - 1 := by
    rw [hlg]
    exact bitmask_eq (k - 3) (by omega)
  have hoff : shifted &&& bitmask (lg2 (size / PTE_BYTES)) < 2 ^ (k - 3) := by
    rw [hmask, Nat.and_pow_two_sub_one_eq_mod]
    exact Nat.mod_lt _ (Nat.two_pow_pos _)
  have hpow : 2 ^ k = 2 ^ (k - 3) * 8 := by
    have hk : k = (k - 3) + 3 := by omega
    rw [hk, Nat.pow_add]
    simp
  have hlt : (shifted &&& bitmask (lg2 (size / PTE_BYTES))) * PTE_BYTES < size :=
    calc (shifted &&& bitmask (lg2 (size / PTE_BYTES))) * PTE_BYTES
        < 2 ^ (k - 3) * 8 := Nat.mul_lt_mul_of_pos_right hoff (by decide)
      _ = size := by rw [hsize, hpow]
  have hle : size ≤ 2 ^ 63 := by
    rw [hsize]
    exact Nat.pow_le_pow_right (by decide) h63
  refine ⟨by rw [hmask, hfan], hlt, Nat.mod_eq_of_lt ?_⟩
  have : (2 : Nat) ^ 63 < U64 := by decide
  omega

/-- C19. For a page-table page size `2 ^ k` with `3 ≤ k ≤ 63` (a 64-bit power of
two that is at least `PTE_BYTES`), every `vaddr` and every level with
`shamt(level) < 64`, `get_offset` returns the bits of `vaddr >> shamt(level)`
under the mask `fanout - 1`, and that offset times `PTE_BYTES` is below
`pte_page_size`; spliced into a 64-bit node address by `get_pte_pa` it
occupies exactly the low `log2(pte_page_size)` bits, and the node address
keeps all its bits above them. -/
theorem get_offset_fits_in_node (vm : VirtualMemory) (k vaddr level node : Nat)
    (hsize : vm.pte_page_size = 2 ^ k) (h3 : 3 ≤ k) (h63 : k ≤ 63)
    (hshamt : vm.shamt level < 64) (hnode : node < U64) :
    ∃ offset,
      vm.get_offset vaddr level = some offset
      ∧ offset = (vaddr >>> vm.shamt level) &&& (vm.pte_page_size / PTE_BYTES - 1)
      ∧ offset * PTE_BYTES < vm.pte_page_size
      ∧ splice_bits node ((offset * PTE_BYTES) % U64) (lg2 vm.pte_page_size) % vm.pte_page_size
        = offset * PTE_BYTES
      ∧ splice_bits node ((offset * PTE_BYTES) % U64) (lg2 vm.pte_page_size) / vm.pte_page_size
        = node / vm.pte_page_size := by
  obtain ⟨hmask, hlt, hmod⟩ := offset_fits vm.pte_page_size k (vaddr >>> vm.shamt level) hsize
    h3 h63
  have hlg : lg2 vm.pte_page_size = k := by
    rw [hsize]
    exact lg2_two_pow k h63
  have hsplice := splice_bits_node node
    (((vaddr >>> vm.shamt level) &&& bitmask (lg2 (vm.pte_page_size / PTE_BYTES))) * PTE_BYTES)
    k (by omega) hnode (by rw [← hsize]; exact hlt)
  rw [← hsize, ← hlg] at hsplice
  refine ⟨_, get_offset_defined vm vaddr level hshamt, by rw [hmask], hlt, ?_, ?_⟩
  · rw [hmod]
    exact hsplice.2.2.1
  · rw [hmod]
    exact hsplice.2.2.2

/-- C19, on the constructed translator with `pte_page_size = 4096 = 2 ^ 12`, at
`vaddr = 0x12345678`, level 2 (`shamt = 21`) and the node address 0x5000:
the offset is 145, `145 * 8 = 1160 < 4096`, and the splice is
`0x5000 + 1160`. -/
theorem get_offset_fits_in_node_witness :
    (constructed_translator.shamt 2 = 21
      ∧ constructed_translator.get_offset 0x12345678 2 = some 145
      ∧ splice_bits 0x5000 ((145 * PTE_BYTES) % U64) (lg2 4096) = 0x5000 + 1160)
    ∧ ∃ offset,
      constructed_translator.get_offset 0x12345678 2 = some offset
      ∧ offset = (0x12345678 >>> constructed_translator.shamt 2)
          &&& (constructed_translator.pte_page_size / PTE_BYTES - 1)
      ∧ offset * PTE_BYTES < constructed_translator.pte_page_size
      ∧ splice_bits 0x5000 ((offset * PTE_BYTES) % U64) (lg2 constructed_translator.pte_page_size)
          % constructed_translator.pte_page_size = offset * PTE_BYTES
      ∧ splice_bits 0x5000 ((offset * PTE_BYTES) % U64) (lg2 constructed_translator.pte_page_size)
          / constructed_translator.pte_page_size = 0x5000 / constructed_translator.pte_page_size :=
  ⟨⟨rfl, rfl, rfl⟩,
    get_offset_fits_in_node constructed_translator 12 0x12345678 2 0x5000 rfl (by decide)
      (by decide) (by decide) (by decide)⟩

/-! ### The address returned by `get_pte_pa` -/

/-- `shamt` depends on the translator through `pte_page_size` only. -/
theorem shamt_congr (vm vm1 : VirtualMemory) (level : Nat)
    (h : vm1.pte_page_size = vm.pte_page_size) : vm1.shamt level = vm.shamt level := by
  unfold shamt
  rw [h]

/-- For a level from 1 on whose shift amount is at most 64 bits wide in the
source's arithmetic, `shamt(level)` is
`log2(page_size) + log2(fanout) * (level - 1)`. -/
theorem shamt_eq (vm : VirtualMemory) (level : Nat) (hlevel : 1 ≤ level)
    (h : LOG2_PAGE_SIZE + lg2 (vm.pte_page_size / PTE_BYTES) * (level - 1) < U64) :
    vm.shamt level = LOG2_PAGE_SIZE + lg2 (vm.pte_page_size / PTE_BYTES) * (level - 1) := by
  unfold shamt
  rw [if_neg (by omega)]
  exact Nat.mod_eq_of_lt h

/-- The cursor stays a 64-bit value through the first statement of
`get_pte_pa`. -/
theorem pte_cursor_init_lt (vm vm0 : VirtualMemory) (cycle vaddr : Nat)
    (hcursor : vm.next_pte_page < U64)
    (h : vm.pte_cursor_init cycle vaddr = some vm0) : vm0.next_pte_page < U64 := by
  unfold pte_cursor_init at h
  split at h
  · cases halloc : vm.BA.ppage_allocate cycle vaddr with
    | none => rw [halloc] at h; exact absurd h (by simp)
    | some allocation =>
      obtain ⟨ba, frame_address⟩ := allocation
      rw [halloc] at h
      have hvm := (Option.some.inj h).symm
      subst hvm
      exact ppage_allocate_lt vm.BA ba cycle vaddr frame_address halloc
  · have hvm := (Option.some.inj h).symm
    subst hvm
    exact hcursor

/-- A defined call of `ppage_allocate` returns. -/
theorem ppage_allocate_of_defined (ba : BuddyAllocator) (cycle vaddr : Nat)
    (h : ba.ppage_allocate_defined cycle vaddr) :
    ∃ allocation, ba.ppage_allocate cycle vaddr = some allocation := by
  unfold ppage_allocate_defined at h
  unfold ppage_allocate get_free_frame
  cases hfree : ba.free_frame_table with
  | nil =>
    rw [hfree] at h
    exact absurd h (by simp)
  | cons f0 rest =>
    rw [hfree] at h
    simp only at h ⊢
    by_cases hmerge : ba.can_merge (vaddr >>> 12) = f0
    · have hlen := (h hmerge).1
      rw [if_pos hmerge]
      simp only [if_true]
      rw [hmerge]
      have hsame : (ba.merging f0 cycle).1.free_frame_table = f0 :: rest := by
        simp only [merging]
        exact hfree
      rw [hsame, if_pos hlen]
      exact ⟨_, rfl⟩
    · rw [if_neg hmerge]
      simp only
      rw [if_neg hmerge]
      exact ⟨_, rfl⟩

/-- The first statement of `get_pte_pa` returns when its allocation, if it makes
one, is defined. -/
theorem pte_cursor_init_of_defined (vm : VirtualMemory) (cycle vaddr : Nat)
    (h : vm.next_pte_page = 0 → vm.BA.ppage_allocate_defined cycle vaddr) :
    ∃ vm0, vm.pte_cursor_init cycle vaddr = some vm0 := by
  unfold pte_cursor_init
  by_cases hzero : vm.next_pte_page = 0
  · obtain ⟨allocation, halloc⟩ := ppage_allocate_of_defined vm.BA cycle vaddr (h hzero)
    rw [if_pos hzero, halloc]
    exact ⟨_, rfl⟩
  · rw [if_neg hzero]
    exact ⟨_, rfl⟩

/-- The body of `if (fault)` returns when its allocation, if it makes one, is
defined. -/
theorem pte_cursor_advance_of_defined (vm : VirtualMemory) (cycle cpu_num vaddr : Nat)
    (h : (vm.next_pte_page + vm.pte_page_size) % U64 % PAGE_SIZE = 0 →
      vm.BA.ppage_allocate_defined cycle vaddr) :
    ∃ vm2, vm.pte_cursor_advance cycle cpu_num vaddr = some vm2 := by
  unfold pte_cursor_advance
  simp only
  by_cases hpage : (vm.next_pte_page + vm.pte_page_size) % U64 % PAGE_SIZE = 0
  · obtain ⟨allocation, halloc⟩ := ppage_allocate_of_defined vm.BA cycle vaddr (h hpage)
    rw [if_pos hpage, halloc]
    exact ⟨_, rfl⟩
  · rw [if_neg hpage]
    exact ⟨_, rfl⟩

/-- C13. On a translator whose page-table page size is `2 ^ k` with `3 ≤ k ≤ 63` and
whose recorded node addresses and cursor are 64-bit values, for a level from
1 on with `log2(page_size) + log2(fanout) * (level - 1) < 64`, a call
`get_pte_pa(cpu_num, vaddr, level)` whose frame allocations are defined
returns `node_base | (offset * PTE_BYTES)`: `node_base` is the node address
recorded under the key `(cpu_num, vaddr >> shamt(level), level)` (the entry
that was there before the call, if there was one) with its low
`log2(pte_page_size)` bits cleared, which is the recorded address itself when
that is a multiple of `pte_page_size`;
`offset = (vaddr >> shamt(level)) & (fanout - 1)` with
`fanout = pte_page_size / PTE_BYTES`;
`shamt(level) = log2(page_size) + log2(fanout) * (level - 1)`; and the fault
latency is the penalty exactly when the key had no entry before the call,
else 0. -/
theorem get_pte_pa_address (vm : VirtualMemory) (k cycle cpu_num vaddr level : Nat)
    (hsize : vm.pte_page_size = 2 ^ k) (h3 : 3 ≤ k) (h63 : k ≤ 63)
    (hlevel : 1 ≤ level)
    (hwidth : LOG2_PAGE_SIZE + lg2 (vm.pte_page_size / PTE_BYTES) * (level - 1) < 64)
    (hentries : ∀ key entry, vm.page_table key = some entry → entry < U64)
    (hcursor : vm.next_pte_page < U64)
    (hdefined : vm.get_pte_pa_allocations_defined cycle cpu_num vaddr level) :
    ∃ vm1 node,
      vm.get_pte_pa cycle cpu_num vaddr level
        = some (vm1,
            (node / vm.pte_page_size * vm.pte_page_size
              ||| ((vaddr >>> vm.shamt level) &&& (vm.pte_page_size / PTE_BYTES - 1)) * PTE_BYTES,
             if vm.page_table (cpu_num, vaddr >>> vm.shamt level, level) = none then
               vm.minor_fault_penalty
             else 0))
      ∧ vm1.page_table (cpu_num, vaddr >>> vm.shamt level, level) = some node
      ∧ (∀ entry, vm.page_table (cpu_num, vaddr >>> vm.shamt level, level) = some entry →
          node = entry)
      ∧ (node % vm.pte_page_size = 0 → node / vm.pte_page_size * vm.pte_page_size = node)
      ∧ vm.shamt level = LOG2_PAGE_SIZE + lg2 (vm.pte_page_size / PTE_BYTES) * (level - 1) := by
  obtain ⟨vm0, hinit⟩ := pte_cursor_init_of_defined vm cycle vaddr hdefined.1
  have hafter := hdefined.2
  rw [hinit] at hafter
  simp only at hafter
  obtain ⟨htable, hsize0, _, _⟩ := pte_cursor_init_unchanged vm vm0 cycle vaddr hinit
  have hshamt0 : vm0.shamt level = vm.shamt level := shamt_congr vm vm0 level hsize0
  obtain ⟨hmask, hlt, hmod⟩ := offset_fits vm.pte_page_size k (vaddr >>> vm.shamt level) hsize
    h3 h63
  have hlg : lg2 vm.pte_page_size = k := by
    rw [hsize]
    exact lg2_two_pow k h63
  have hformula : vm.shamt level
      = LOG2_PAGE_SIZE + lg2 (vm.pte_page_size / PTE_BYTES) * (level - 1) :=
    shamt_eq vm level hlevel (Nat.lt_trans hwidth (by decide))
  have hshamt : vm.shamt level < 64 := by
    rw [hformula]
    exact hwidth
  have hsplice : ∀ node, node < U64 →
      splice_bits node
        ((((vaddr >>> vm0.shamt level) &&& bitmask (lg2 (vm0.pte_page_size / PTE_BYTES)))
          * PTE_BYTES) % U64) (lg2 vm0.pte_page_size)
      = node / vm.pte_page_size * vm.pte_page_size
        ||| ((vaddr >>> vm.shamt level) &&& (vm.pte_page_size / PTE_BYTES - 1)) * PTE_BYTES := by
    intro node hnode
    have h := (splice_bits_node node
      (((vaddr >>> vm.shamt level) &&& bitmask (lg2 (vm.pte_page_size / PTE_BYTES)))
        * PTE_BYTES) k (by omega) hnode (by rw [← hsize]; exact hlt)).1
    rw [← hsize] at h
    rw [hshamt0, hsize0, hmod, hlg, h, hmask]
  have haligned : ∀ node, node % vm.pte_page_size = 0 →
      node / vm.pte_page_size * vm.pte_page_size = node := by
    intro node hnode
    have h := Nat.div_add_mod node vm.pte_page_size
    rw [hnode, Nat.add_zero, Nat.mul_comm] at h
    exact h
  cases hentry : vm.page_table (cpu_num, vaddr >>> vm.shamt level, level) with
  | some entry =>
    have hentry0 : vm0.page_table (cpu_num, vaddr >>> vm0.shamt level, level) = some entry := by
      rw [htable, hshamt0]
      exact hentry
    refine ⟨vm0, entry, ?_, ?_, ?_, haligned entry, hformula⟩
    · rw [get_pte_pa_hit vm vm0 cycle cpu_num vaddr level entry hinit (by omega) hentry0,
        hsplice entry (hentries _ entry hentry)]
      simp
    · rw [htable]
      exact hentry
    · intro e he
      exact (Option.some.inj he)
  | none =>
    have hentry0 : vm0.page_table (cpu_num, vaddr >>> vm0.shamt level, level) = none := by
      rw [htable, hshamt0]
      exact hentry
    obtain ⟨vm2, hvm2⟩ := pte_cursor_advance_of_defined
      { vm0 with
        page_table :=
          map_assign vm0.page_table (cpu_num, vaddr >>> vm0.shamt level, level)
            vm0.next_pte_page }
      cycle cpu_num vaddr (hafter hentry0)
    have htable2 := (pte_cursor_advance_unchanged _ vm2 cycle cpu_num vaddr hvm2).1
    refine ⟨vm2, vm0.next_pte_page, ?_, ?_, ?_, haligned _, hformula⟩
    · rw [get_pte_pa_miss vm vm0 vm2 cycle cpu_num vaddr level hinit (by omega) hentry0 hvm2,
        hsplice _ (pte_cursor_init_lt vm vm0 cycle vaddr hcursor hinit)]
      simp
    · rw [htable2, ← hshamt0]
      simp [map_assign]
    · intro e he
      exact absurd he (by simp)

/-- C13, on a translator with `pte_page_size = 4096`, the cursor at 0x1000 and
one recorded node: `get_pte_pa(0, 0x12345678, 1)` misses, records the node
address 0x1000 under the key `(0, 0x12345, 1)`, takes frame 2 from the
allocator through the branch of a new region, and returns
`(0x1000 | 0x145 * 8, 200) = (6696, 200)`; `get_pte_pa(0, 0x12345678, 2)`
hits the node recorded at 0 and returns `(145 * 8, 0) = (1160, 0)`. -/
theorem get_pte_pa_address_witness :
    ((walked_translator.get_pte_pa 8 0 0x12345678 1).map (fun r => r.2) = some (6696, 200)
      ∧ (walked_translator.get_pte_pa 8 0 0x12345678 2).map (fun r => r.2) = some (1160, 0)
      ∧ walked_translator.get_pte_pa_allocations_defined 8 0 0x12345678 1)
    ∧ ∃ vm1 node,
      walked_translator.get_pte_pa 8 0 0x12345678 1
        = some (vm1,
            (node / walked_translator.pte_page_size * walked_translator.pte_page_size
              ||| ((0x12345678 >>> walked_translator.shamt 1)
                    &&& (walked_translator.pte_page_size / PTE_BYTES - 1)) * PTE_BYTES,
             if walked_translator.page_table
                 (0, 0x12345678 >>> walked_translator.shamt 1, 1) = none then
               walked_translator.minor_fault_penalty
             else 0))
      ∧ vm1.page_table (0, 0x12345678 >>> walked_translator.shamt 1, 1) = some node
      ∧ (∀ entry, walked_translator.page_table
            (0, 0x12345678 >>> walked_translator.shamt 1, 1) = some entry → node = entry)
      ∧ (node % walked_translator.pte_page_size = 0 →
          node / walked_translator.pte_page_size * walked_translator.pte_page_size = node)
      ∧ walked_translator.shamt 1
        = LOG2_PAGE_SIZE + lg2 (walked_translator.pte_page_size / PTE_BYTES) * (1 - 1) :=
  ⟨⟨by decide!, by decide!, by decide!⟩,
    get_pte_pa_address walked_translator 12 8 0 0x12345678 1 rfl (by decide) (by decide)
      (by decide) (by decide)
      (fun key entry h => by
        simp only [walked_translator, map_assign] at h
        split at h
        · exact (Option.some.inj h) ▸ (by decide)
        · exact absurd h (by simp))
      (by decide) (by decide!)⟩

/-- C13, as stated, fails, in three ways. On a translator with
`pte_page_size = 8192` whose cursor is 0 and whose first free frame is 1,
`get_pte_pa(0, 0x5000, 1)`, whose allocations are defined, records the node
address 0x1000 under the key `(0, 5, 1)` and returns `(40, 200)`, not
`0x1000 | 5 * 8 = 4136`: a recorded address that is no multiple of
`pte_page_size` loses its low bits. At level 7 with `pte_page_size = 4096`
the shift amount `shamt(7)` is 66 and the shift of the 64-bit address is
undefined. And with a cursor of 0 and no free frame the allocation of the
first statement reads the first entry of an empty table. -/
theorem get_pte_pa_address_not_for_every_state :
    ((wide_node_translator.get_pte_pa 7 0 0x5000 1).map
        (fun r => (r.2, r.1.page_table (0, 0x5000 >>> wide_node_translator.shamt 1, 1)))
        = some ((40, 200), some 0x1000)
      ∧ wide_node_translator.get_pte_pa_allocations_defined 7 0 0x5000 1
      ∧ 0x1000 ||| ((0x5000 >>> wide_node_translator.shamt 1)
            &&& (wide_node_translator.pte_page_size / PTE_BYTES - 1)) * PTE_BYTES = 4136
      ∧ 0x1000 % wide_node_translator.pte_page_size ≠ 0)
    ∧ (walked_translator.shamt 7 = 66
      ∧ 1 ≤ 7
      ∧ walked_translator.get_pte_pa 8 0 0x12345678 7 = none)
    ∧ (exhausted_translator.BA.free_frame_table = []
      ∧ exhausted_translator.get_pte_pa 7 0 0x0 1 = none) := by
  refine ⟨⟨by decide!, by decide!, by decide!, by decide!⟩, ⟨by decide!, by decide, rfl⟩,
    ⟨rfl, rfl⟩⟩


/-! ### The node cursor -/

/-- The cursor after the body of `if (fault)`: the old cursor plus
`pte_page_size`, whether or not a frame was requested; the value of
`ppage_allocate` is never assigned to it. -/
theorem pte_cursor_advance_cursor (vm vm1 : VirtualMemory) (cycle cpu_num vaddr : Nat)
    (h : vm.pte_cursor_advance cycle cpu_num vaddr = some vm1) :
    vm1.next_pte_page = (vm.next_pte_page + vm.pte_page_size) % U64 := by
  unfold pte_cursor_advance at h
  simp only at h
  split at h
  · split at h
    · exact absurd h (by simp)
    · have hvm := (Option.some.inj h).symm
      subst hvm
      rfl
  · have hvm := (Option.some.inj h).symm
    subst hvm
    rfl

/-- C14. On the constructed translator (`pte_page_size = 4096`, so that every miss
moves the cursor across a page boundary) the misses `get_pte_pa(0, 0x0, 1)`,
`get_pte_pa(0, 0x2000, 1)`, `get_pte_pa(0, 0x3000, 1)` leave the cursor at
0x3000, while the frame obtained from the allocator by the third miss has the
address 0x2000 and is stored in the translation table under `(0, 0x3000)`:
the cursor is not reset to the new frame. After two more misses,
`get_pte_pa(0, 0x4000, 1)` and `get_pte_pa(0, 0x5000, 1)`, the node of the
key `(0, 5, 1)` is recorded at 0x4000 in frame 4, which is neither free nor
in an allocated region; the frames the allocator handed out for the five
boundary crossings are 1, 2, 2, 3 and 5, all stored as translations. -/
theorem cursor_is_not_reset_to_new_frame :
    (constructed_translator.walk_all
        [(7, 0, 0x0, 1), (7, 0, 0x2000, 1), (7, 0, 0x3000, 1)]).map
      (fun r => (r.2, r.1.next_pte_page, r.1.vpage_to_ppage_map (0, 0x3000)))
      = some ([(0, 200), (0x1010, 200), (0x2018, 200)], 0x3000, some 0x2000)
    ∧ (constructed_translator.walk_all
        [(7, 0, 0x0, 1), (7, 0, 0x2000, 1), (7, 0, 0x3000, 1), (7, 0, 0x4000, 1),
          (7, 0, 0x5000, 1)]).map
      (fun r => (r.1.page_table (0, 5, 1),
        [r.1.vpage_to_ppage_map (0, 0x0), r.1.vpage_to_ppage_map (0, 0x2000),
          r.1.vpage_to_ppage_map (0, 0x3000), r.1.vpage_to_ppage_map (0, 0x4000),
          r.1.vpage_to_ppage_map (0, 0x5000)],
        r.1.BA.allocated_frame_table,
        decide (r.1.BA.allocated 4), decide (4 ∈ r.1.BA.free_frame_table)))
      = some (some 0x4000,
          [some 0x1000, some 0x2000, some 0x2000, some 0x3000, some 0x5000],
          [⟨1, 2, 0, 7⟩, ⟨2, 1, 3, 7⟩, ⟨3, 1, 4, 7⟩, ⟨5, 1, 5, 7⟩],
          false, false) := by
  refine ⟨by decide!, by decide!⟩

end ChampSim
